import Mathlib

/-!
Verification development for the `zev-up` repository: a GPKG→PMTiles conversion
pipeline (R scripts) and a browser map viewer (MapLibre + PMTiles, JS).

The definitions below are a shallow embedding of the repository's code:
* `Convert.*` embeds `scripts/convert_gpkg_to_pmtiles.R` (current revision, and
  the earlier ladder as `sample_rate_v1`) plus the `convert_missing` script.
* `Viewer.*` embeds `web/js/config.js` (the revision carrying `availableFiles`
  and `overlayLayers`), `web/js/layers.js` and `web/js/app.js`.

JavaScript map-library calls are embedded as operations on an explicit
`MapState` (the set of source ids and layer ids added to the map); a thrown JS
exception is modelled as an `Option`-style error flag, returned together with
the (possibly partially mutated) map state, mirroring where the mutation had
already happened before the throw.
-/

namespace Convert

/-- `COLUMN_RANGES` from `convert_gpkg_to_pmtiles.R`: stage name ↦ (start, end)
column range. -/
def COLUMN_RANGES : List (String × Nat × Nat) :=
  [ ("adoption_propensity", 418, 438),
    ("charging_network", 418, 434),
    ("trip_purpose", 15, 25),
    ("range_feasibility", 3, 10),
    ("conversion_potential", 418, 439),
    ("integrated_conversion_with_ev_types", 418, 444),
    ("ev_assignment_replaceable_only", 418, 451) ]

/-- The clipping step of `convert_polygon_layer` / `convert_line_layer`:
`start_col <- min(col_range[1], n_cols); end_col <- min(col_range[2], n_cols)`. -/
def clip_cols (s e n : Nat) : Nat × Nat := (min s n, min e n)

/-- Embedding of `sf_data[, start_col:end_col]` applied to an sf data frame:
the retained column indices are the integer range `start..end`, and sf's
sticky-geometry rule keeps the geometry column in addition, whether or not its
index lies in the range. -/
def kept_cols (s e n geom : Nat) : Finset Nat :=
  Finset.Icc (clip_cols s e n).1 (clip_cols s e n).2 ∪ {geom}

/-- Sampling-rate ladder of the current `convert_line_layer`
(`# More aggressive sampling for smaller files`). -/
def sample_rate (file_size_gb : ℚ) : ℚ :=
  if file_size_gb > 10 then 1/100
  else if file_size_gb > 3 then 3/100
  else if file_size_gb > 1 then 5/100
  else if file_size_gb > 1/2 then 1/10
  else if file_size_gb > 1/10 then 15/100
  else 1

/-- Sampling-rate ladder of the first-generation `convert_line_layer`
(`# Sample large files`). -/
def sample_rate_v1 (file_size_gb : ℚ) : ℚ :=
  if file_size_gb > 5 then 1/10
  else if file_size_gb > 1 then 3/10
  else if file_size_gb > 1/2 then 1/2
  else 1

/-- The size→rate table of the current ladder, ordered by decreasing threshold,
exactly as the `if`/`else if` chain tests them. -/
def SAMPLE_THRESHOLDS : List (ℚ × ℚ) :=
  [(10, 1/100), (3, 3/100), (1, 5/100), (1/2, 1/10), (1/10, 15/100)]

/-- Same for the first-generation ladder. -/
def SAMPLE_THRESHOLDS_V1 : List (ℚ × ℚ) :=
  [(5, 1/10), (1, 3/10), (1/2, 1/2)]

/-- `n_sample <- ceiling(n_original * sample_rate)`. -/
def n_sample (file_size_gb : ℚ) (n_original : Nat) : Nat :=
  (⌈(n_original : ℚ) * sample_rate file_size_gb⌉).toNat

/-- Number of rows kept by the sampling block of `convert_line_layer`: the
subsetting `sf_data[sample(n_original, n_sample), ]` runs only when
`sample_rate < 1.0` and keeps exactly `n_sample` rows; otherwise all rows stay. -/
def rows_kept (file_size_gb : ℚ) (n_original : Nat) : Nat :=
  if sample_rate file_size_gb < 1 then n_sample file_size_gb n_original else n_original

end Convert

namespace Convert

/-- Modelled from the spec: the state-update step of R's base random number
generator.  R's RNG implementation is external to this repository; the spec
only requires that sampling be a deterministic function of the seed, so we
model the stream with a linear congruential step. -/
def rngNext (state : Nat) : Nat := (state * 1103515245 + 12345) % 4294967296

/-- The R session's random number generator state. -/
structure RNG where
  state : Nat
deriving DecidableEq

/-- `set.seed(42)`: replaces the generator state with a function of the seed
alone, discarding whatever state the session had before. -/
def set_seed (seed : Nat) (_rng : RNG) : RNG := ⟨seed⟩

/-- Modelled from the spec: R's base `sample(n, k)` is external to this
repository; the spec describes it as a deterministic (given the seed) draw of
`k` row indices, uniform without replacement.  We model it as a seeded
Fisher–Yates-style selection: repeatedly pick a position from the remaining
pool using the generator state, emit it, and remove it from the pool. -/
def sampleDraw : Nat → Nat → List Nat → List Nat
  | _, 0, _ => []
  | state, k + 1, pool =>
    if h : 0 < pool.length then
      let x := pool.get ⟨state % pool.length, Nat.mod_lt _ h⟩
      x :: sampleDraw (rngNext state) k (pool.erase x)
    else []

/-- `sample(n_original, n_sample)`: draw `k` of the row indices `1..n`. -/
def sample (rng : RNG) (n k : Nat) : List Nat :=
  sampleDraw rng.state k (List.range' 1 n)

/-- The sampling block of `convert_line_layer`, with the R session's RNG state
made explicit: when the selected rate is below 1 the script calls
`set.seed(42)` and then `sample(n_original, n_sample)`; otherwise every row
index is kept. -/
def subsample_rows (rng : RNG) (file_size_gb : ℚ) (n_original : Nat) : List Nat :=
  if sample_rate file_size_gb < 1 then
    sample (set_seed 42 rng) n_original (n_sample file_size_gb n_original)
  else List.range' 1 n_original

end Convert

namespace Viewer

/-- Geometry type of a stage or overlay (`type: 'polygon' | 'line'` in
`config.js`). -/
inductive GeomType
  | polygon
  | line
deriving DecidableEq

/-- One entry of `CONFIG.stages`. -/
structure StageConfig where
  id : String
  name : String
  type : GeomType
  description : String
  colorProperty : String
  colorScale : String
  legendTitle : String
deriving DecidableEq

/-- One entry of `CONFIG.regions`. -/
structure Region where
  id : String
  name : String
  center : ℚ × ℚ
  zoom : ℚ
deriving DecidableEq

/-- One entry of `CONFIG.overlayLayers`. -/
structure OverlayConfig where
  id : String
  name : String
  type : GeomType
  description : String
  colorProperty : String
  colorScale : String
  legendTitle : String
  sourceLayer : String
deriving DecidableEq

/-- A `CONFIG.colorScales` value: either a JS array of `[stop, color]` pairs
(a continuous scale, recognised in the code by `Array.isArray`) or a JS object
mapping category name → color (a categorical scale). -/
inductive ColorScale
  | continuous (stops : List (ℚ × String))
  | categorical (entries : List (String × String))
deriving DecidableEq

namespace CONFIG

/-- `CONFIG.regions` from `config.js`. -/
def regions : List Region :=
  [ ⟨"hitrans", "HITRANS", (-5.5, 57.5), 7⟩,
    ⟨"nestrans", "Nestrans", (-2.1, 57.15), 9⟩,
    ⟨"sestran", "SESTRAN", (-3.2, 55.95), 9⟩,
    ⟨"spt", "SPT", (-4.25, 55.85), 9⟩,
    ⟨"swestrans", "SWESTRANS", (-4.0, 55.1), 9⟩,
    ⟨"tactran", "Tactran", (-3.8, 56.5), 8⟩,
    ⟨"zettrans", "ZetTrans", (-1.2, 60.4), 9⟩ ]

/-- `CONFIG.stages` from `config.js`. -/
def stages : List StageConfig :=
  [ ⟨"adoption_propensity", "Adoption Propensity", .polygon,
      "Demographic-based EV adoption likelihood",
      "final_adoption_propensity", "viridis", "Final Adoption Propensity"⟩,
    ⟨"charging_network", "Charging Network", .polygon,
      "Charging infrastructure accessibility",
      "charging_accessibility_category", "charging_category", "Charging Accessibility"⟩,
    ⟨"trip_purpose", "Trip Purpose", .line,
      "Trip purpose suitability analysis",
      "purpose", "categorical", "Trip Purpose"⟩,
    ⟨"range_feasibility", "Range Feasibility", .line,
      "100km range constraint analysis",
      "feasibility_category", "feasibility", "Feasibility"⟩,
    ⟨"conversion_potential", "Conversion Potential", .polygon,
      "Trip conversion potential",
      "purpose_weight", "viridis", "Purpose Weight"⟩,
    ⟨"ev_assignment_replaceable_only", "EV Assignment", .polygon,
      "2-seater vs 4-seater assignment",
      "ev_type_assignment", "ev_type", "EV Type Assignment"⟩,
    ⟨"integrated_conversion_with_ev_types", "Integrated Analysis", .polygon,
      "Final integrated feasibility",
      "integrated_score", "viridis", "Integrated Score"⟩ ]

/-- `CONFIG.availableFiles` from `config.js`: the region_stage archive keys
that exist. -/
def availableFiles : List String :=
  [ "chargers",
    "car_availability",
    "ev_distribution",
    "hitrans_adoption_propensity",
    "hitrans_charging_network",
    "hitrans_conversion_potential",
    "hitrans_ev_assignment_replaceable_only",
    "hitrans_integrated_conversion_with_ev_types",
    "hitrans_range_feasibility",
    "hitrans_trip_purpose",
    "nestrans_adoption_propensity",
    "nestrans_charging_network",
    "nestrans_conversion_potential",
    "nestrans_ev_assignment_replaceable_only",
    "nestrans_integrated_conversion_with_ev_types",
    "nestrans_range_feasibility",
    "nestrans_trip_purpose",
    "sestran_adoption_propensity",
    "sestran_charging_network",
    "sestran_conversion_potential",
    "sestran_ev_assignment_replaceable_only",
    "sestran_integrated_conversion_with_ev_types",
    "sestran_range_feasibility",
    "sestran_trip_purpose",
    "spt_adoption_propensity",
    "spt_charging_network",
    "spt_conversion_potential",
    "spt_ev_assignment_replaceable_only",
    "spt_integrated_conversion_with_ev_types",
    "spt_range_feasibility",
    "spt_trip_purpose",
    "swestrans_adoption_propensity",
    "swestrans_charging_network",
    "swestrans_conversion_potential",
    "swestrans_ev_assignment_replaceable_only",
    "swestrans_integrated_conversion_with_ev_types",
    "swestrans_range_feasibility",
    "swestrans_trip_purpose",
    "tactran_adoption_propensity",
    "tactran_charging_network",
    "tactran_conversion_potential",
    "tactran_ev_assignment_replaceable_only",
    "tactran_integrated_conversion_with_ev_types",
    "tactran_range_feasibility",
    "tactran_trip_purpose",
    "zettrans_adoption_propensity",
    "zettrans_charging_network",
    "zettrans_conversion_potential",
    "zettrans_ev_assignment_replaceable_only",
    "zettrans_integrated_conversion_with_ev_types",
    "zettrans_range_feasibility",
    "zettrans_trip_purpose" ]

/-- `CONFIG.overlayLayers` from `config.js`. -/
def overlayLayers : List OverlayConfig :=
  [ ⟨"car_availability", "Car/Van Availability", .polygon,
      "Household car ownership from 2011 Census",
      "car_ownership_rate", "viridis", "Car Ownership Rate", "car_availability"⟩,
    ⟨"ev_distribution", "EV Distribution", .polygon,
      "Current EV registrations by postcode area",
      "bev_share", "plasma", "BEV Share (%)", "ev_distribution"⟩ ]

/-- `CONFIG.colorScales` from `config.js`. -/
def colorScales : List (String × ColorScale) :=
  [ ("viridis", .continuous
      [(0, "#440154"), (1/4, "#3b528b"), (1/2, "#21918c"),
       (3/4, "#5ec962"), (1, "#fde725")]),
    ("plasma", .continuous
      [(0, "#0d0887"), (1/4, "#7e03a8"), (1/2, "#cc4778"),
       (3/4, "#f89540"), (1, "#f0f921")]),
    ("feasibility", .categorical
      [("feasible", "#2ecc71"), ("constrained", "#f39c12"),
       ("infeasible", "#e74c3c")]),
    ("charging_category", .categorical
      [("excellent", "#2ecc71"), ("good", "#27ae60"),
       ("fair", "#f39c12"), ("poor", "#e74c3c")]),
    ("ev_type", .categorical
      [("2-seater", "#3498db"), ("4-seater", "#9b59b6"), ("mixed", "#1abc9c")]),
    ("categorical", .categorical
      [("Commuting", "#e74c3c"), ("Business", "#c0392b"),
       ("Education", "#3498db"), ("shopping", "#2ecc71"),
       ("Other personal business", "#9b59b6"), ("Escort", "#f39c12"),
       ("Visiting friends or relatives", "#1abc9c"),
       ("Holiday/daytrip", "#e91e63"), ("Sport/Entertainment", "#00bcd4"),
       ("Eating/Drinking", "#ff9800"),
       ("Visit Hospital or other health", "#607d8b"),
       ("Other Journey", "#95a5a6")]) ]

end CONFIG

/-- The state of the MapLibre map that the viewer manipulates: the ids of the
sources and layers that have been added (beyond the basemap style). -/
structure MapState where
  sources : List String
  layers : List String
deriving DecidableEq

namespace LAYERS

/-- `CONFIG.stages.find(s => s.id === stage)`. -/
def findStage (stage : String) : Option StageConfig :=
  CONFIG.stages.find? (fun s => s.id == stage)

/-- `CONFIG.overlayLayers.find(o => o.id === overlayId)`. -/
def findOverlay (overlayId : String) : Option OverlayConfig :=
  CONFIG.overlayLayers.find? (fun o => o.id == overlayId)

/-- `CONFIG.colorScales[name]` (an absent key yields JS `undefined`, here
`none`). -/
def lookupScale (name : String) : Option ColorScale :=
  (CONFIG.colorScales.find? (fun p => p.1 == name)).map (fun p => p.2)

/-- `LAYERS.addLayer(map, region, stage)` from `layers.js`.  Returns the
updated map together with `some layerId` on normal return.  `none` models a
thrown JS exception — a `TypeError` reading `.type` when the stage has no
config entry, or the map rejecting a duplicate layer id — together with the
map state as mutated up to the throw (the source, and for polygons the fill
layer, are added before the throwing statement runs). -/
def addLayer (m : MapState) (region stage : String) : MapState × Option String :=
  let sourceId := region ++ "-" ++ stage ++ "-source"
  let layerId := region ++ "-" ++ stage
  let m1 := if sourceId ∈ m.sources then m
            else { m with sources := m.sources ++ [sourceId] }
  match findStage stage with
  | none => (m1, none)
  | some stageConfig =>
    match stageConfig.type with
    | .polygon =>
      if layerId ∈ m1.layers then (m1, some layerId)
      else
        let m2 := { m1 with layers := m1.layers ++ [layerId] }
        if layerId ++ "-outline" ∈ m2.layers then (m2, none)
        else ({ m2 with layers := m2.layers ++ [layerId ++ "-outline"] }, some layerId)
    | .line =>
      if layerId ∈ m1.layers then (m1, some layerId)
      else ({ m1 with layers := m1.layers ++ [layerId] }, some layerId)

/-- `LAYERS.removeLayer(map, region, stage)` from `layers.js`: remove the
layer id, then the paired outline id, then the source id, each guarded by a
presence check. -/
def removeLayer (m : MapState) (region stage : String) : MapState :=
  let sourceId := region ++ "-" ++ stage ++ "-source"
  let layerId := region ++ "-" ++ stage
  let m1 := if layerId ∈ m.layers then { m with layers := m.layers.erase layerId } else m
  let m2 := if layerId ++ "-outline" ∈ m1.layers then
              { m1 with layers := m1.layers.erase (layerId ++ "-outline") }
            else m1
  if sourceId ∈ m2.sources then { m2 with sources := m2.sources.erase sourceId } else m2

/-- `LAYERS.addOverlayLayer(map, overlayId)` from `layers.js`.  An unknown
overlay id returns `none` as the layer id before touching the map.  The error
flag in the first component mirrors `addLayer`'s. -/
def addOverlayLayer (m : MapState) (overlayId : String) : MapState × Option String :=
  match findOverlay overlayId with
  | none => (m, none)
  | some overlayConfig =>
    let sourceId := overlayId ++ "-source"
    let layerId := overlayId
    let m1 := if sourceId ∈ m.sources then m
              else { m with sources := m.sources ++ [sourceId] }
    match overlayConfig.type with
    | .polygon =>
      if layerId ∈ m1.layers then (m1, some layerId)
      else
        let m2 := { m1 with layers := m1.layers ++ [layerId] }
        if layerId ++ "-outline" ∈ m2.layers then (m2, none)
        else ({ m2 with layers := m2.layers ++ [layerId ++ "-outline"] }, some layerId)
    | .line => (m1, some layerId)

/-- `LAYERS.removeOverlayLayer(map, overlayId)` from `layers.js`. -/
def removeOverlayLayer (m : MapState) (overlayId : String) : MapState :=
  let sourceId := overlayId ++ "-source"
  let layerId := overlayId
  let m1 := if layerId ∈ m.layers then { m with layers := m.layers.erase layerId } else m
  let m2 := if layerId ++ "-outline" ∈ m1.layers then
              { m1 with layers := m1.layers.erase (layerId ++ "-outline") }
            else m1
  if sourceId ∈ m2.sources then { m2 with sources := m2.sources.erase sourceId } else m2

/-- Whether a character counts as a JS `\w` word character. -/
def isWordChar (c : Char) : Bool := c.isAlphanum || c == '_'

/-- Uppercase every word-initial character (`replace(/\b\w/g, l =>
l.toUpperCase())`); the boolean carries whether the previous character was a
word character. -/
def upperWordInitials : Bool → List Char → List Char
  | _, [] => []
  | prevWord, c :: cs =>
    (if !prevWord && isWordChar c then c.toUpper else c) ::
      upperWordInitials (isWordChar c) cs

/-- `label.replace(/_/g, ' ').replace(/\b\w/g, l => l.toUpperCase())` from the
categorical-legend loops. -/
def displayLabel (label : String) : String :=
  ⟨upperWordInitials false (label.data.map (fun c => if c = '_' then ' ' else c))⟩

/-- The structure of the legend HTML a legend generator builds: a title `div`
followed by either a gradient bar with its `<span>` labels, or one
swatch-plus-label row per iterated category. -/
inductive LegendBody
  | gradient (colors : List String) (labels : List String)
  | rows (items : List (String × String))
deriving DecidableEq

/-- Result of a legend generator: the empty string, a legend, or a thrown JS
exception (reading a property of `undefined`). -/
inductive LegendOutput
  | emptyStr
  | html (title : String) (body : LegendBody)
  | thrown
deriving DecidableEq

/-- `LAYERS.generateLegend(stage)` from `layers.js`: continuous scales render
a gradient and the three literal labels `0`, `0.5`, `1`; categorical scales
render one row per declared category. -/
def generateLegend (stage : String) : LegendOutput :=
  match findStage stage with
  | none => .thrown
  | some stageConfig =>
    match lookupScale stageConfig.colorScale with
    | none => .thrown
    | some (.continuous stops) =>
        .html stageConfig.legendTitle
          (.gradient (stops.map (fun p => p.2)) ["0", "0.5", "1"])
    | some (.categorical entries) =>
        .html stageConfig.legendTitle
          (.rows (entries.map (fun p => (displayLabel p.1, p.2))))

/-- `LAYERS.generateOverlayLegend(overlayId)` from `layers.js`: an unknown id
returns `''`; continuous scales render three labels chosen per overlay id;
categorical scales render one row per declared category. -/
def generateOverlayLegend (overlayId : String) : LegendOutput :=
  match findOverlay overlayId with
  | none => .emptyStr
  | some overlayConfig =>
    match lookupScale overlayConfig.colorScale with
    | none => .thrown
    | some (.continuous stops) =>
        let labels : List String :=
          if overlayId == "ev_distribution" then ["0", "3000", "7000+"]
          else if overlayId == "car_availability" then ["0%", "50%", "100%"]
          else ["0", "0.5", "1"]
        .html overlayConfig.legendTitle (.gradient (stops.map (fun p => p.2)) labels)
    | some (.categorical entries) =>
        .html overlayConfig.legendTitle
          (.rows (entries.map (fun p => (displayLabel p.1, p.2))))

end LAYERS

/-- The viewer's selection state (`EVModellingApp` fields). -/
structure AppState where
  map : MapState
  currentRegion : String
  currentStage : String
  currentBasemap : String
  activeLayers : List String
  showChargers : Bool
  showAnalysisLayer : Bool
  showCarAvailability : Bool
  showEvDistribution : Bool
deriving DecidableEq

/-- JS `String.prototype.split` with a single-character separator. -/
def splitChar (sep : Char) : List Char → List (List Char)
  | [] => [[]]
  | c :: cs =>
    let r := splitChar sep cs
    if c = sep then [] :: r
    else
      match r with
      | [] => [[c]]
      | p :: ps => (c :: p) :: ps

/-- `layerId.split('-')` on a string. -/
def jsSplit (s : String) (sep : Char) : List String :=
  (splitChar sep s.data).map (fun l => ⟨l⟩)

/-- JS `Array.prototype.join(sep)`. -/
def jsJoin (sep : String) : List String → String
  | [] => ""
  | [x] => x
  | x :: xs => x ++ sep ++ jsJoin sep xs

/-- The id-parsing step at the top of `updateLayers`:
`parts = layerId.split('-'); region = parts[0];
stage = parts.slice(1).join('_')`. -/
def parseLayerId (layerId : String) : String × String :=
  let parts := jsSplit layerId '-'
  (parts.headD "", jsJoin "_" (parts.drop 1))

/-- `regionsToShow` inside `updateLayers`: all region ids when "all" is
selected, otherwise just the current region. -/
def regionsToShow (currentRegion : String) : List String :=
  if currentRegion == "all" then CONFIG.regions.map (fun r => r.id)
  else [currentRegion]

/-- The removal pass of `updateLayers`: parse each active layer id and remove
its layers and source from the map. -/
def removePhase (s : AppState) : MapState :=
  s.activeLayers.foldl (fun m lid =>
    let p := parseLayerId lid
    LAYERS.removeLayer m p.1 p.2) s.map

/-- One iteration of the region loop of `updateLayers`: skip regions whose
`{region}_{stage}` key is not in `CONFIG.availableFiles`; otherwise add the
layer inside `try`/`catch`, pushing the returned id only on success (a thrown
exception is logged and the loop continues). -/
def addRegionStep (stage : String) (acc : MapState × List String) (region : String) :
    MapState × List String :=
  let fileKey := region ++ "_" ++ stage
  if fileKey ∈ CONFIG.availableFiles then
    match LAYERS.addLayer acc.1 region stage with
    | (m2, some layerId) => (m2, acc.2 ++ [layerId])
    | (m2, none) => (m2, acc.2)
  else acc

/-- `updateLayers` from `app.js`: remove all active layers, then (only when
the analysis layer is enabled) re-add one layer per region to show, guarded by
the availability list, collecting the new active layer ids. -/
def updateLayers (s : AppState) : AppState :=
  let m1 := removePhase s
  if !s.showAnalysisLayer then { s with map := m1, activeLayers := [] }
  else
    let res := (regionsToShow s.currentRegion).foldl
      (addRegionStep s.currentStage) (m1, [])
    { s with map := res.1, activeLayers := res.2 }

/-- A JS feature-attribute value as the click handler sees it: a number or
anything else (rendered as-is). -/
inductive JSValue
  | num (q : ℚ)
  | str (s : String)
deriving DecidableEq

/-- The rendering rule `formatPropertyValue` chooses: `toFixed(3)`,
`toFixed(1) + ' km'`, `toLocaleString()`, or the value returned unchanged.
The numeral-to-text conversion itself is a JS builtin and is abstracted into
the constructor. -/
inductive Formatted
  | fixed3 (q : ℚ)
  | km (q : ℚ)
  | locale (q : ℚ)
  | raw (v : JSValue)
deriving DecidableEq

/-- Whether `l` begins with `pat`. -/
def startsWithChars : List Char → List Char → Bool
  | _, [] => true
  | [], _ :: _ => false
  | c :: cs, p :: ps => c == p && startsWithChars cs ps

/-- Whether `pat` occurs somewhere in the list. -/
def hasSubstr (pat : List Char) : List Char → Bool
  | [] => startsWithChars [] pat
  | c :: cs => startsWithChars (c :: cs) pat || hasSubstr pat cs

/-- JS `String.prototype.includes`. -/
def jsIncludes (s pat : String) : Bool := hasSubstr pat.data s.data

/-- `formatPropertyValue(prop, value)` from `app.js`. -/
def formatPropertyValue (prop : String) (value : JSValue) : Formatted :=
  match value with
  | .num q =>
    if jsIncludes prop "score" || jsIncludes prop "potential" ||
        jsIncludes prop "feasibility" then .fixed3 q
    else if jsIncludes prop "distance" || jsIncludes prop "km" then .km q
    else .locale q
  | .str s => .raw (.str s)

end Viewer

/-- Claim C1: for every stage with a declared column range and every table with
`n ≥ 1` columns, the conversion selects exactly the columns with indices
`min(start, n)` through `min(end, n)` — all of them within `1..n`, so no
out-of-bounds index is ever formed — and the geometry column is always retained
whether or not it lies inside the clipped range. -/
theorem clip_cols_in_bounds_and_geometry_kept
    (stage : String) (s e : Nat) (hmem : (stage, s, e) ∈ Convert.COLUMN_RANGES)
    (n : Nat) (hn : 1 ≤ n) (geom : Nat) (hg : geom ≤ n) :
    (∀ i ∈ Convert.kept_cols s e n geom, i ≤ n) ∧
    geom ∈ Convert.kept_cols s e n geom ∧
    1 ≤ (Convert.clip_cols s e n).1 ∧
    (Convert.clip_cols s e n).1 ≤ (Convert.clip_cols s e n).2 ∧
    (Convert.clip_cols s e n).2 ≤ n ∧
    (∀ i, i ∈ Convert.kept_cols s e n geom ↔
      ((min s n ≤ i ∧ i ≤ min e n) ∨ i = geom)) := by
  have hse : 1 ≤ s ∧ s ≤ e := by
    fin_cases hmem <;> exact ⟨by norm_num, by norm_num⟩
  refine ⟨?_, ?_, ?_, ?_, ?_, ?_⟩
  · intro i hi
    simp only [Convert.kept_cols, Convert.clip_cols, Finset.mem_union,
      Finset.mem_Icc, Finset.mem_singleton] at hi
    rcases hi with ⟨_, h2⟩ | h
    · omega
    · omega
  · simp [Convert.kept_cols]
  · simp only [Convert.clip_cols]
    omega
  · simp only [Convert.clip_cols]
    omega
  · simp only [Convert.clip_cols]
    omega
  · intro i
    simp [Convert.kept_cols, Convert.clip_cols, Finset.mem_union, Finset.mem_Icc]

/-- Claim C2: whenever the input file size exceeds at least one sampling
threshold, the sampling block keeps exactly `ceiling(n_original * rate)` rows,
where `rate` is the rate paired with the largest threshold the size exceeds; a
12 GB input takes the `> 10` branch with rate 0.01; and the sample count is
never zero when `n_original ≥ 1`.  The same largest-exceeded-threshold rule is
also proved for the first-generation ladder `sample_rate_v1`. -/
theorem rows_kept_eq_ceil_of_largest_threshold
    (gb : ℚ) (n : Nat) (hn : 1 ≤ n)
    (hex : ∃ p ∈ Convert.SAMPLE_THRESHOLDS, p.1 < gb) :
    Convert.rows_kept gb n = (⌈(n : ℚ) * Convert.sample_rate gb⌉).toNat ∧
    (∃ p ∈ Convert.SAMPLE_THRESHOLDS, p.1 < gb ∧ Convert.sample_rate gb = p.2 ∧
      ∀ q ∈ Convert.SAMPLE_THRESHOLDS, q.1 < gb → q.1 ≤ p.1) ∧
    1 ≤ Convert.rows_kept gb n ∧
    (gb = 12 → Convert.sample_rate gb = 1/100) ∧
    ((∃ p ∈ Convert.SAMPLE_THRESHOLDS_V1, p.1 < gb) →
      ∃ p ∈ Convert.SAMPLE_THRESHOLDS_V1, p.1 < gb ∧
        Convert.sample_rate_v1 gb = p.2 ∧
        ∀ q ∈ Convert.SAMPLE_THRESHOLDS_V1, q.1 < gb → q.1 ≤ p.1) := by
  have hnq : (0 : ℚ) < (n : ℚ) := by exact_mod_cast hn
  have hv1 : (∃ p ∈ Convert.SAMPLE_THRESHOLDS_V1, p.1 < gb) →
      ∃ p ∈ Convert.SAMPLE_THRESHOLDS_V1, p.1 < gb ∧
        Convert.sample_rate_v1 gb = p.2 ∧
        ∀ q ∈ Convert.SAMPLE_THRESHOLDS_V1, q.1 < gb → q.1 ≤ p.1 := by
    intro hx1
    unfold Convert.sample_rate_v1
    split_ifs with h1 h2 h3
    · refine ⟨(5, 1/10), by simp [Convert.SAMPLE_THRESHOLDS_V1], h1, rfl, ?_⟩
      intro q hq _
      simp only [Convert.SAMPLE_THRESHOLDS_V1, List.mem_cons, List.not_mem_nil,
        or_false] at hq
      rcases hq with rfl | rfl | rfl <;> norm_num
    · refine ⟨(1, 3/10), by simp [Convert.SAMPLE_THRESHOLDS_V1], h2, rfl, ?_⟩
      intro q hq hqgb
      simp only [Convert.SAMPLE_THRESHOLDS_V1, List.mem_cons, List.not_mem_nil,
        or_false] at hq
      rcases hq with rfl | rfl | rfl <;> simp only at hqgb ⊢ <;> linarith
    · refine ⟨(1/2, 1/2), by simp [Convert.SAMPLE_THRESHOLDS_V1], h3, rfl, ?_⟩
      intro q hq hqgb
      simp only [Convert.SAMPLE_THRESHOLDS_V1, List.mem_cons, List.not_mem_nil,
        or_false] at hq
      rcases hq with rfl | rfl | rfl <;> simp only at hqgb ⊢ <;> linarith
    · exfalso
      obtain ⟨p, hp, hplt⟩ := hx1
      simp only [Convert.SAMPLE_THRESHOLDS_V1, List.mem_cons, List.not_mem_nil,
        or_false] at hp
      rcases hp with rfl | rfl | rfl <;> simp only at hplt <;> linarith
  have key : Convert.sample_rate gb < 1 ∧ 0 < Convert.sample_rate gb ∧
      (∃ p ∈ Convert.SAMPLE_THRESHOLDS, p.1 < gb ∧ Convert.sample_rate gb = p.2 ∧
        ∀ q ∈ Convert.SAMPLE_THRESHOLDS, q.1 < gb → q.1 ≤ p.1) ∧
      (gb = 12 → Convert.sample_rate gb = 1/100) := by
    unfold Convert.sample_rate
    split_ifs with h1 h2 h3 h4 h5
    · refine ⟨by norm_num, by norm_num, ⟨(10, 1/100), by simp [Convert.SAMPLE_THRESHOLDS],
        h1, rfl, ?_⟩, fun _ => rfl⟩
      intro q hq _
      simp only [Convert.SAMPLE_THRESHOLDS, List.mem_cons, List.not_mem_nil,
        or_false] at hq
      rcases hq with rfl | rfl | rfl | rfl | rfl <;> norm_num
    · refine ⟨by norm_num, by norm_num, ⟨(3, 3/100), by simp [Convert.SAMPLE_THRESHOLDS],
        h2, rfl, ?_⟩, fun h12 => absurd (h12 ▸ h1) (by norm_num)⟩
      intro q hq hqgb
      simp only [Convert.SAMPLE_THRESHOLDS, List.mem_cons, List.not_mem_nil,
        or_false] at hq
      rcases hq with rfl | rfl | rfl | rfl | rfl <;> simp only at hqgb ⊢ <;> linarith
    · refine ⟨by norm_num, by norm_num, ⟨(1, 5/100), by simp [Convert.SAMPLE_THRESHOLDS],
        h3, rfl, ?_⟩, fun h12 => absurd (h12 ▸ h1) (by norm_num)⟩
      intro q hq hqgb
      simp only [Convert.SAMPLE_THRESHOLDS, List.mem_cons, List.not_mem_nil,
        or_false] at hq
      rcases hq with rfl | rfl | rfl | rfl | rfl <;> simp only at hqgb ⊢ <;> linarith
    · refine ⟨by norm_num, by norm_num, ⟨(1/2, 1/10), by simp [Convert.SAMPLE_THRESHOLDS],
        h4, rfl, ?_⟩, fun h12 => absurd (h12 ▸ h1) (by norm_num)⟩
      intro q hq hqgb
      simp only [Convert.SAMPLE_THRESHOLDS, List.mem_cons, List.not_mem_nil,
        or_false] at hq
      rcases hq with rfl | rfl | rfl | rfl | rfl <;> simp only at hqgb ⊢ <;> linarith
    · refine ⟨by norm_num, by norm_num, ⟨(1/10, 15/100), by simp [Convert.SAMPLE_THRESHOLDS],
        h5, rfl, ?_⟩, fun h12 => absurd (h12 ▸ h1) (by norm_num)⟩
      intro q hq hqgb
      simp only [Convert.SAMPLE_THRESHOLDS, List.mem_cons, List.not_mem_nil,
        or_false] at hq
      rcases hq with rfl | rfl | rfl | rfl | rfl <;> simp only at hqgb ⊢ <;> linarith
    · exfalso
      obtain ⟨p, hp, hplt⟩ := hex
      simp only [Convert.SAMPLE_THRESHOLDS, List.mem_cons, List.not_mem_nil,
        or_false] at hp
      rcases hp with rfl | rfl | rfl | rfl | rfl <;> simp only at hplt <;> linarith
  obtain ⟨hlt1, hpos, hmax, h12⟩ := key
  have hceil : 0 < ⌈(n : ℚ) * Convert.sample_rate gb⌉ :=
    Int.ceil_pos.mpr (mul_pos hnq hpos)
  have hrows : Convert.rows_kept gb n = (⌈(n : ℚ) * Convert.sample_rate gb⌉).toNat := by
    simp [Convert.rows_kept, Convert.n_sample, hlt1]
  refine ⟨hrows, hmax, ?_, h12, hv1⟩
  rw [hrows]
  omega

/-- Witness for C2: the spec's 12 GB end-to-end scenario with 100 original
rows. -/
theorem rows_kept_eq_ceil_of_largest_threshold_witness :
    (1 ≤ 100 ∧ ∃ p ∈ Convert.SAMPLE_THRESHOLDS, p.1 < (12 : ℚ)) ∧
    (Convert.rows_kept 12 100 = (⌈(100 : ℚ) * Convert.sample_rate 12⌉).toNat ∧
      (∃ p ∈ Convert.SAMPLE_THRESHOLDS, p.1 < (12 : ℚ) ∧
        Convert.sample_rate 12 = p.2 ∧
        ∀ q ∈ Convert.SAMPLE_THRESHOLDS, q.1 < (12 : ℚ) → q.1 ≤ p.1) ∧
      1 ≤ Convert.rows_kept 12 100 ∧
      ((12 : ℚ) = 12 → Convert.sample_rate 12 = 1/100) ∧
      ((∃ p ∈ Convert.SAMPLE_THRESHOLDS_V1, p.1 < (12 : ℚ)) →
        ∃ p ∈ Convert.SAMPLE_THRESHOLDS_V1, p.1 < (12 : ℚ) ∧
          Convert.sample_rate_v1 12 = p.2 ∧
          ∀ q ∈ Convert.SAMPLE_THRESHOLDS_V1, q.1 < (12 : ℚ) → q.1 ≤ p.1)) :=
  ⟨⟨by norm_num, ⟨(10, 1/100), by simp [Convert.SAMPLE_THRESHOLDS], by norm_num⟩⟩,
    rows_kept_eq_ceil_of_largest_threshold 12 100 (by norm_num)
      ⟨(10, 1/100), by simp [Convert.SAMPLE_THRESHOLDS], by norm_num⟩⟩

/-- Witness for C1: the spec's end-to-end scenario — stage
`adoption_propensity` with range [418, 438] on a 450-column table selects
columns 418–438 plus the geometry column, unaffected by the clip. -/
theorem clip_cols_in_bounds_and_geometry_kept_witness :
    (("adoption_propensity", 418, 438) ∈ Convert.COLUMN_RANGES ∧
      1 ≤ 450 ∧ 450 ≤ 450) ∧
    ((∀ i ∈ Convert.kept_cols 418 438 450 450, i ≤ 450) ∧
      450 ∈ Convert.kept_cols 418 438 450 450 ∧
      1 ≤ (Convert.clip_cols 418 438 450).1 ∧
      (Convert.clip_cols 418 438 450).1 ≤ (Convert.clip_cols 418 438 450).2 ∧
      (Convert.clip_cols 418 438 450).2 ≤ 450 ∧
      (∀ i, i ∈ Convert.kept_cols 418 438 450 450 ↔
        ((min 418 450 ≤ i ∧ i ≤ min 438 450) ∨ i = 450))) :=
  ⟨⟨by decide, by decide, by decide⟩,
    clip_cols_in_bounds_and_geometry_kept "adoption_propensity" 418 438
      (by decide) 450 (by decide) 450 (by decide)⟩

/-- Claim C9: `formatPropertyValue` renders a numeric value rounded to 3
decimals when the attribute name contains "score", "potential" or
"feasibility"; otherwise with a kilometres suffix when it contains "distance"
or "km"; otherwise with locale thousands-grouping; and returns non-numeric
values unchanged. -/
theorem formatPropertyValue_rules (prop : String) (q : ℚ) (s : String) :
    ((Viewer.jsIncludes prop "score" || Viewer.jsIncludes prop "potential" ||
        Viewer.jsIncludes prop "feasibility") = true →
      Viewer.formatPropertyValue prop (.num q) = .fixed3 q) ∧
    ((Viewer.jsIncludes prop "score" || Viewer.jsIncludes prop "potential" ||
        Viewer.jsIncludes prop "feasibility") = false →
      (Viewer.jsIncludes prop "distance" || Viewer.jsIncludes prop "km") = true →
      Viewer.formatPropertyValue prop (.num q) = .km q) ∧
    ((Viewer.jsIncludes prop "score" || Viewer.jsIncludes prop "potential" ||
        Viewer.jsIncludes prop "feasibility") = false →
      (Viewer.jsIncludes prop "distance" || Viewer.jsIncludes prop "km") = false →
      Viewer.formatPropertyValue prop (.num q) = .locale q) ∧
    Viewer.formatPropertyValue prop (.str s) = .raw (.str s) :=
  ⟨fun h => by simp [Viewer.formatPropertyValue, h],
   fun h1 h2 => by simp [Viewer.formatPropertyValue, h1, h2],
   fun h1 h2 => by simp [Viewer.formatPropertyValue, h1, h2],
   rfl⟩

/-- Witness for C9: one concrete attribute per formatting rule. -/
theorem formatPropertyValue_rules_witness :
    ((Viewer.jsIncludes "adoption_propensity_score" "score" ||
        Viewer.jsIncludes "adoption_propensity_score" "potential" ||
        Viewer.jsIncludes "adoption_propensity_score" "feasibility") = true ∧
      Viewer.formatPropertyValue "adoption_propensity_score" (.num (1/2)) =
        .fixed3 (1/2)) ∧
    ((Viewer.jsIncludes "distance_km" "score" ||
        Viewer.jsIncludes "distance_km" "potential" ||
        Viewer.jsIncludes "distance_km" "feasibility") = false ∧
      (Viewer.jsIncludes "distance_km" "distance" ||
        Viewer.jsIncludes "distance_km" "km") = true ∧
      Viewer.formatPropertyValue "distance_km" (.num 42) = .km 42) ∧
    ((Viewer.jsIncludes "total_households" "score" ||
        Viewer.jsIncludes "total_households" "potential" ||
        Viewer.jsIncludes "total_households" "feasibility") = false ∧
      (Viewer.jsIncludes "total_households" "distance" ||
        Viewer.jsIncludes "total_households" "km") = false ∧
      Viewer.formatPropertyValue "total_households" (.num 1234) = .locale 1234) ∧
    Viewer.formatPropertyValue "geo_code" (.str "S00090182") =
      .raw (.str "S00090182") :=
  ⟨⟨by decide,
    (formatPropertyValue_rules "adoption_propensity_score" (1/2) "").1 (by decide)⟩,
   ⟨by decide, by decide,
    (formatPropertyValue_rules "distance_km" 42 "").2.1 (by decide) (by decide)⟩,
   ⟨by decide, by decide,
    (formatPropertyValue_rules "total_households" 1234 "").2.2.1
      (by decide) (by decide)⟩,
   (formatPropertyValue_rules "geo_code" 0 "S00090182").2.2.2⟩

/-- Claim C10: an overlay id absent from `CONFIG.overlayLayers` makes
`addOverlayLayer` return `null` while leaving the map's sources and layers
completely untouched, and makes `generateOverlayLegend` return the empty
string — a total no-op, not an error. -/
theorem unknown_overlay_is_noop (m : Viewer.MapState) (overlayId : String)
    (h : Viewer.LAYERS.findOverlay overlayId = none) :
    Viewer.LAYERS.addOverlayLayer m overlayId = (m, none) ∧
    Viewer.LAYERS.generateOverlayLegend overlayId = .emptyStr := by
  constructor
  · simp [Viewer.LAYERS.addOverlayLayer, h]
  · simp [Viewer.LAYERS.generateOverlayLegend, h]

/-- Witness for C10: the id "chargers" names a PMTiles file but not an
overlay, and an arbitrary unknown id behaves the same. -/
theorem unknown_overlay_is_noop_witness :
    Viewer.LAYERS.findOverlay "chargers" = none ∧
    (Viewer.LAYERS.addOverlayLayer ⟨["x-source"], ["x"]⟩ "chargers" =
      (⟨["x-source"], ["x"]⟩, none) ∧
     Viewer.LAYERS.generateOverlayLegend "chargers" = .emptyStr) :=
  ⟨by decide, unknown_overlay_is_noop ⟨["x-source"], ["x"]⟩ "chargers" (by decide)⟩

/-- Claim C7: for a declared stage whose color scale is a continuous array the
generated legend carries exactly the three labels 0, 0.5 and 1; for a
categorical scale it carries exactly one swatch-plus-label row per declared
category and nothing else (no fallback row).  Overlay legends behave the same,
with three per-overlay continuous labels. -/
theorem generateLegend_stop_and_row_counts (stage overlayId : String)
    (cfg : Viewer.StageConfig) (ocfg : Viewer.OverlayConfig)
    (hs : Viewer.LAYERS.findStage stage = some cfg)
    (ho : Viewer.LAYERS.findOverlay overlayId = some ocfg) :
    (∀ stops, Viewer.LAYERS.lookupScale cfg.colorScale = some (.continuous stops) →
      Viewer.LAYERS.generateLegend stage =
        .html cfg.legendTitle
          (.gradient (stops.map (fun p => p.2)) ["0", "0.5", "1"])) ∧
    (∀ entries, Viewer.LAYERS.lookupScale cfg.colorScale = some (.categorical entries) →
      Viewer.LAYERS.generateLegend stage =
        .html cfg.legendTitle
          (.rows (entries.map (fun p => (Viewer.LAYERS.displayLabel p.1, p.2))))) ∧
    (∀ stops, Viewer.LAYERS.lookupScale ocfg.colorScale = some (.continuous stops) →
      ∃ labels, Viewer.LAYERS.generateOverlayLegend overlayId =
        .html ocfg.legendTitle (.gradient (stops.map (fun p => p.2)) labels) ∧
        labels.length = 3) ∧
    (∀ entries, Viewer.LAYERS.lookupScale ocfg.colorScale = some (.categorical entries) →
      Viewer.LAYERS.generateOverlayLegend overlayId =
        .html ocfg.legendTitle
          (.rows (entries.map (fun p => (Viewer.LAYERS.displayLabel p.1, p.2))))) := by
  refine ⟨fun stops hsc => by simp [Viewer.LAYERS.generateLegend, hs, hsc],
    fun entries hsc => by simp [Viewer.LAYERS.generateLegend, hs, hsc],
    fun stops hsc => ?_,
    fun entries hsc => by simp [Viewer.LAYERS.generateOverlayLegend, ho, hsc]⟩
  simp only [Viewer.LAYERS.generateOverlayLegend, ho, hsc]
  by_cases h1 : (overlayId == "ev_distribution") = true
  · exact ⟨["0", "3000", "7000+"], by simp [h1], rfl⟩
  · by_cases h2 : (overlayId == "car_availability") = true
    · refine ⟨["0%", "50%", "100%"], ?_, rfl⟩
      simp only [Bool.not_eq_true] at h1
      simp [h1, h2]
    · refine ⟨["0", "0.5", "1"], ?_, rfl⟩
      simp only [Bool.not_eq_true] at h1 h2
      simp [h1, h2]

/-- Witness for C7: the continuous stage "adoption_propensity", the
categorical stage "range_feasibility" (three categories, three rows), and the
continuous overlay "ev_distribution". -/
theorem generateLegend_stop_and_row_counts_witness :
    Viewer.LAYERS.generateLegend "adoption_propensity" =
      .html "Final Adoption Propensity"
        (.gradient ["#440154", "#3b528b", "#21918c", "#5ec962", "#fde725"]
          ["0", "0.5", "1"]) ∧
    Viewer.LAYERS.generateLegend "range_feasibility" =
      .html "Feasibility"
        (.rows [("Feasible", "#2ecc71"), ("Constrained", "#f39c12"),
          ("Infeasible", "#e74c3c")]) ∧
    (∃ labels, Viewer.LAYERS.generateOverlayLegend "ev_distribution" =
      .html "BEV Share (%)"
        (.gradient ["#0d0887", "#7e03a8", "#cc4778", "#f89540", "#f0f921"] labels) ∧
      labels.length = 3) := by
  refine ⟨?_, ?_, ?_⟩
  · exact (generateLegend_stop_and_row_counts "adoption_propensity"
      "ev_distribution" _ _ rfl rfl).1 _ rfl
  · exact (generateLegend_stop_and_row_counts "range_feasibility"
      "ev_distribution" _ _ rfl rfl).2.1 _ rfl
  · exact (generateLegend_stop_and_row_counts "adoption_propensity"
      "ev_distribution" _ _ rfl rfl).2.2.1 _ rfl

/-- Every index drawn by `sampleDraw` comes from the pool. -/
theorem sampleDraw_subset (k : Nat) :
    ∀ (state : Nat) (pool : List Nat), ∀ x ∈ Convert.sampleDraw state k pool, x ∈ pool := by
  induction k with
  | zero =>
    intro state pool x hx
    simp [Convert.sampleDraw] at hx
  | succ n ih =>
    intro state pool x hx
    rw [Convert.sampleDraw] at hx
    split at hx
    · rcases List.mem_cons.mp hx with h | h
      · exact h ▸ List.get_mem pool _ _
      · exact List.mem_of_mem_erase (ih _ _ x h)
    · simp at hx

/-- `sampleDraw` never repeats an index if the pool has no duplicates. -/
theorem sampleDraw_nodup (k : Nat) :
    ∀ (state : Nat) (pool : List Nat), pool.Nodup →
      (Convert.sampleDraw state k pool).Nodup := by
  induction k with
  | zero =>
    intro state pool _
    simp [Convert.sampleDraw]
  | succ n ih =>
    intro state pool hpool
    rw [Convert.sampleDraw]
    split
    · refine List.nodup_cons.mpr ⟨fun hmem => ?_, ih _ _ (hpool.erase _)⟩
      exact hpool.not_mem_erase (sampleDraw_subset n _ _ _ hmem)
    · exact List.nodup_nil

/-- `sampleDraw` returns `min k pool.length` indices. -/
theorem sampleDraw_length (k : Nat) :
    ∀ (state : Nat) (pool : List Nat),
      (Convert.sampleDraw state k pool).length = min k pool.length := by
  induction k with
  | zero =>
    intro state pool
    simp [Convert.sampleDraw]
  | succ n ih =>
    intro state pool
    rw [Convert.sampleDraw]
    split
    · rename_i h
      have hget : pool.get ⟨state % pool.length, Nat.mod_lt _ h⟩ ∈ pool :=
        List.get_mem pool _ _
      simp only [List.length_cons, ih, List.length_erase_of_mem hget]
      omega
    · rename_i h
      simp only [List.length_nil]
      omega

/-- The sampling rate is always in `[0, 1]`. -/
theorem sample_rate_mem_unit (gb : ℚ) :
    0 ≤ Convert.sample_rate gb ∧ Convert.sample_rate gb ≤ 1 := by
  unfold Convert.sample_rate
  split_ifs <;> norm_num

/-- Claim C8: the subsampling step of `convert_line_layer` is a deterministic
function of the fixed seed, the row count and the rate — two runs from any two
RNG states select the identical index list — and the selection is drawn from
the row indices `1..n` without replacement (no duplicates), with exactly
`rows_kept` indices. -/
theorem subsample_rows_deterministic_and_without_replacement
    (rng1 rng2 : Convert.RNG) (gb : ℚ) (n : Nat) :
    Convert.subsample_rows rng1 gb n = Convert.subsample_rows rng2 gb n ∧
    (Convert.subsample_rows rng1 gb n).Nodup ∧
    (∀ i ∈ Convert.subsample_rows rng1 gb n, 1 ≤ i ∧ i ≤ n) ∧
    (Convert.subsample_rows rng1 gb n).length = Convert.rows_kept gb n := by
  obtain ⟨hr0, hr1⟩ := sample_rate_mem_unit gb
  refine ⟨rfl, ?_, ?_, ?_⟩
  · unfold Convert.subsample_rows
    split_ifs
    · exact sampleDraw_nodup _ _ _ (List.nodup_range' 1 n)
    · exact List.nodup_range' 1 n
  · intro i hi
    have hmem : i ∈ List.range' 1 n := by
      unfold Convert.subsample_rows at hi
      split_ifs at hi
      · exact sampleDraw_subset _ _ _ i hi
      · exact hi
    obtain ⟨j, hj, rfl⟩ := List.mem_range'.mp hmem
    omega
  · unfold Convert.subsample_rows Convert.rows_kept
    split_ifs with h
    · have hk : Convert.n_sample gb n ≤ n := by
        have hle : (n : ℚ) * Convert.sample_rate gb ≤ (n : ℚ) :=
          mul_le_of_le_one_right (Nat.cast_nonneg n) hr1
        have hceil : ⌈(n : ℚ) * Convert.sample_rate gb⌉ ≤ (n : ℤ) :=
          Int.ceil_le.mpr (by exact_mod_cast hle)
        unfold Convert.n_sample
        omega
      unfold Convert.sample
      rw [sampleDraw_length, List.length_range']
      omega
    · exact List.length_range' 1 1 n

/-- A string is never equal to itself extended by a nonempty suffix. -/
theorem string_ne_self_append (s t : String) (h : 0 < t.length) : s ≠ s ++ t := by
  intro he
  have hl := congrArg String.length he
  rw [String.length_append] at hl
  omega

/-- After any `addLayer` call, the derived source id is on the map. -/
theorem addLayer_sourceId_mem (m : Viewer.MapState) (region stage : String) :
    (region ++ "-" ++ stage ++ "-source") ∈
      (Viewer.LAYERS.addLayer m region stage).1.sources := by
  unfold Viewer.LAYERS.addLayer
  cases hf : Viewer.LAYERS.findStage stage with
  | none =>
    by_cases hs : (region ++ "-" ++ stage ++ "-source") ∈ m.sources <;>
      simp [hs]
  | some cfg =>
    cases htype : cfg.type <;>
      by_cases hs : (region ++ "-" ++ stage ++ "-source") ∈ m.sources <;>
      by_cases hl : (region ++ "-" ++ stage) ∈ m.layers <;>
      simp [htype, hs, hl] <;>
      split_ifs <;> simp [hs]

/-- After an `addLayer` call whose stage has a config entry, the layer id is
on the map. -/
theorem addLayer_layerId_mem (m : Viewer.MapState) (region stage : String)
    (cfg : Viewer.StageConfig) (hf : Viewer.LAYERS.findStage stage = some cfg) :
    (region ++ "-" ++ stage) ∈ (Viewer.LAYERS.addLayer m region stage).1.layers := by
  unfold Viewer.LAYERS.addLayer
  rw [hf]
  cases htype : cfg.type <;>
    by_cases hs : (region ++ "-" ++ stage ++ "-source") ∈ m.sources <;>
    by_cases hl : (region ++ "-" ++ stage) ∈ m.layers <;>
    simp [htype, hs, hl] <;>
    split_ifs <;> simp [hl]

/-- `addLayer` leaves the state untouched when both the source id and the
layer id are already present. -/
theorem addLayer_skip (m : Viewer.MapState) (region stage : String)
    (hs : (region ++ "-" ++ stage ++ "-source") ∈ m.sources)
    (hl : (region ++ "-" ++ stage) ∈ m.layers) :
    (Viewer.LAYERS.addLayer m region stage).1 = m := by
  unfold Viewer.LAYERS.addLayer
  cases hf : Viewer.LAYERS.findStage stage with
  | none => simp [hs]
  | some cfg => cases htype : cfg.type <;> simp [htype, hs, hl]

/-- Claim C4: `removeLayer` is a total no-op (no state change, no error) when
none of the layer id, outline id or source id is present; `addLayer` is
idempotent on the map state, and when the layer id (resp. source id) is
already present it adds no layer (resp. no source) at all — hence never a
duplicate. -/
theorem removeLayer_noop_addLayer_idempotent (m : Viewer.MapState) (region stage : String) :
    ((region ++ "-" ++ stage) ∉ m.layers →
      (region ++ "-" ++ stage ++ "-outline") ∉ m.layers →
      (region ++ "-" ++ stage ++ "-source") ∉ m.sources →
      Viewer.LAYERS.removeLayer m region stage = m) ∧
    (Viewer.LAYERS.addLayer (Viewer.LAYERS.addLayer m region stage).1 region stage).1 =
      (Viewer.LAYERS.addLayer m region stage).1 ∧
    ((region ++ "-" ++ stage) ∈ m.layers →
      (Viewer.LAYERS.addLayer m region stage).1.layers = m.layers) ∧
    ((region ++ "-" ++ stage ++ "-source") ∈ m.sources →
      (Viewer.LAYERS.addLayer m region stage).1.sources = m.sources) := by
  refine ⟨fun h1 h2 h3 => ?_, ?_, fun hl => ?_, fun hs => ?_⟩
  · simp [Viewer.LAYERS.removeLayer, h1, h2, h3]
  · cases hf : Viewer.LAYERS.findStage stage with
    | none =>
      have hsrc := addLayer_sourceId_mem m region stage
      set m2 := (Viewer.LAYERS.addLayer m region stage).1 with hm2
      unfold Viewer.LAYERS.addLayer
      simp [hf, hsrc]
    | some cfg =>
      exact addLayer_skip _ region stage (addLayer_sourceId_mem m region stage)
        (addLayer_layerId_mem m region stage cfg hf)
  · unfold Viewer.LAYERS.addLayer
    cases hf : Viewer.LAYERS.findStage stage with
    | none =>
      by_cases hs : (region ++ "-" ++ stage ++ "-source") ∈ m.sources <;> simp [hs]
    | some cfg =>
      cases htype : cfg.type <;>
        by_cases hs : (region ++ "-" ++ stage ++ "-source") ∈ m.sources <;>
        simp [htype, hs, hl]
  · unfold Viewer.LAYERS.addLayer
    cases hf : Viewer.LAYERS.findStage stage with
    | none => simp [hs]
    | some cfg =>
      cases htype : cfg.type <;>
        by_cases hl2 : (region ++ "-" ++ stage) ∈ m.layers <;>
        simp [htype, hs, hl2] <;> first | rfl | (split_ifs <;> simp [hs])

/-- Witness for C4: removing from an empty map is a no-op, and re-adding an
already-present layer changes nothing. -/
theorem removeLayer_noop_addLayer_idempotent_witness :
    Viewer.LAYERS.removeLayer ⟨[], []⟩ "hitrans" "adoption_propensity" =
      (⟨[], []⟩ : Viewer.MapState) ∧
    (Viewer.LAYERS.addLayer (Viewer.LAYERS.addLayer
        (⟨[], []⟩ : Viewer.MapState) "hitrans" "adoption_propensity").1
        "hitrans" "adoption_propensity").1 =
      (Viewer.LAYERS.addLayer (⟨[], []⟩ : Viewer.MapState)
        "hitrans" "adoption_propensity").1 ∧
    (Viewer.LAYERS.addLayer
        (⟨["hitrans-adoption_propensity-source"], ["hitrans-adoption_propensity"]⟩ :
          Viewer.MapState) "hitrans" "adoption_propensity").1.layers =
      ["hitrans-adoption_propensity"] ∧
    (Viewer.LAYERS.addLayer
        (⟨["hitrans-adoption_propensity-source"], ["hitrans-adoption_propensity"]⟩ :
          Viewer.MapState) "hitrans" "adoption_propensity").1.sources =
      ["hitrans-adoption_propensity-source"] :=
  ⟨(removeLayer_noop_addLayer_idempotent ⟨[], []⟩ "hitrans" "adoption_propensity").1
      (by decide) (by decide) (by decide),
   (removeLayer_noop_addLayer_idempotent ⟨[], []⟩ "hitrans" "adoption_propensity").2.1,
   (removeLayer_noop_addLayer_idempotent
      ⟨["hitrans-adoption_propensity-source"], ["hitrans-adoption_propensity"]⟩
      "hitrans" "adoption_propensity").2.2.1 (by decide),
   (removeLayer_noop_addLayer_idempotent
      ⟨["hitrans-adoption_propensity-source"], ["hitrans-adoption_propensity"]⟩
      "hitrans" "adoption_propensity").2.2.2 (by decide)⟩

/-- Claim C5: toggling an overlay that is not on the map on and then off
restores the map's source and layer lists exactly, and the two calls touch
only the overlay's own ids: the intermediate state differs from the original
only by the overlay layer id, its outline, and its source. -/
theorem overlay_toggle_restores (m : Viewer.MapState) (overlayId : String)
    (ocfg : Viewer.OverlayConfig)
    (hf : Viewer.LAYERS.findOverlay overlayId = some ocfg)
    (h1 : overlayId ∉ m.layers)
    (h2 : overlayId ++ "-outline" ∉ m.layers)
    (h3 : overlayId ++ "-source" ∉ m.sources) :
    Viewer.LAYERS.removeOverlayLayer
      (Viewer.LAYERS.addOverlayLayer m overlayId).1 overlayId = m ∧
    (∀ x, x ∈ (Viewer.LAYERS.addOverlayLayer m overlayId).1.layers ↔
      (x ∈ m.layers ∨ (ocfg.type = .polygon ∧
        (x = overlayId ∨ x = overlayId ++ "-outline")))) ∧
    (∀ x, x ∈ (Viewer.LAYERS.addOverlayLayer m overlayId).1.sources ↔
      (x ∈ m.sources ∨ x = overlayId ++ "-source")) := by
  obtain ⟨msources, mlayers⟩ := m
  simp only at h1 h2 h3
  have hne : overlayId ≠ overlayId ++ "-outline" :=
    string_ne_self_append _ _ (by decide)
  cases htype : ocfg.type with
  | polygon =>
    have hadd : (Viewer.LAYERS.addOverlayLayer ⟨msources, mlayers⟩ overlayId).1 =
        ⟨msources ++ [overlayId ++ "-source"],
          (mlayers ++ [overlayId]) ++ [overlayId ++ "-outline"]⟩ := by
      unfold Viewer.LAYERS.addOverlayLayer
      rw [hf]
      simp [htype, h1, h2, h3, Ne.symm hne]
    rw [hadd]
    refine ⟨?_, fun x => ?_, fun x => ?_⟩
    · unfold Viewer.LAYERS.removeOverlayLayer
      have e0 : (mlayers ++ [overlayId, overlayId ++ "-outline"]).erase overlayId =
          mlayers ++ [overlayId ++ "-outline"] := by
        rw [List.erase_append_right _ h1]
        simp
      have e1 : (mlayers ++ [overlayId ++ "-outline"]).erase (overlayId ++ "-outline") =
          mlayers := by
        rw [List.erase_append_right _ h2]
        simp
      have e2 : (msources ++ [overlayId ++ "-source"]).erase (overlayId ++ "-source") =
          msources := by
        rw [List.erase_append_right _ h3]
        simp
      simp [e0, e1, e2, h2]
    · simp [htype, List.mem_append]
    · simp [List.mem_append]
  | line =>
    have hadd : (Viewer.LAYERS.addOverlayLayer ⟨msources, mlayers⟩ overlayId).1 =
        ⟨msources ++ [overlayId ++ "-source"], mlayers⟩ := by
      unfold Viewer.LAYERS.addOverlayLayer
      rw [hf]
      simp [htype, h3]
    rw [hadd]
    refine ⟨?_, fun x => ?_, fun x => ?_⟩
    · unfold Viewer.LAYERS.removeOverlayLayer
      have e2 : (msources ++ [overlayId ++ "-source"]).erase (overlayId ++ "-source") =
          msources := by
        rw [List.erase_append_right _ h3]
        simp
      simp [e2, h1, h2]
    · simp [htype, List.mem_append]
    · simp [List.mem_append]

/-- Witness for C5: toggling the "car_availability" overlay on a map holding
one unrelated analysis layer restores it exactly. -/
theorem overlay_toggle_restores_witness :
    Viewer.LAYERS.removeOverlayLayer
      (Viewer.LAYERS.addOverlayLayer ⟨["x-source"], ["x"]⟩ "car_availability").1
      "car_availability" = (⟨["x-source"], ["x"]⟩ : Viewer.MapState) ∧
    ("x" ∈ (Viewer.LAYERS.addOverlayLayer
        (⟨["x-source"], ["x"]⟩ : Viewer.MapState) "car_availability").1.layers ↔
      ("x" ∈ (["x"] : List String) ∨
        ((Viewer.CONFIG.overlayLayers.get ⟨0, by decide⟩).type = .polygon ∧
          ("x" = "car_availability" ∨ "x" = "car_availability" ++ "-outline")))) :=
  ⟨(overlay_toggle_restores ⟨["x-source"], ["x"]⟩ "car_availability" _ rfl
      (by decide) (by decide) (by decide)).1,
   (overlay_toggle_restores ⟨["x-source"], ["x"]⟩ "car_availability" _ rfl
      (by decide) (by decide) (by decide)).2.1 "x"⟩

/-- `splitChar` on a list `l₁ ++ sep :: l₂` with no separator in `l₁` peels
off `l₁` as the first part. -/
theorem splitChar_append_cons (c : Char) (l₂ : List Char) :
    ∀ l₁ : List Char, c ∉ l₁ →
      Viewer.splitChar c (l₁ ++ c :: l₂) = l₁ :: Viewer.splitChar c l₂ := by
  intro l₁
  induction l₁ with
  | nil =>
    intro _
    simp [Viewer.splitChar]
  | cons a l₁ ih =>
    intro h
    have ha : ¬(a = c) := fun he => h (by simp [he])
    have ih2 := ih (fun hm => h (List.mem_cons_of_mem _ hm))
    simp only [List.cons_append, Viewer.splitChar, if_neg ha, List.append_eq, ih2]

/-- `splitChar` on a list without the separator returns the single part. -/
theorem splitChar_of_not_mem (c : Char) :
    ∀ l : List Char, c ∉ l → Viewer.splitChar c l = [l] := by
  intro l
  induction l with
  | nil => intro _; rfl
  | cons a l ih =>
    intro h
    have ha : ¬(a = c) := fun he => h (by simp [he])
    have ih2 := ih (fun hm => h (List.mem_cons_of_mem _ hm))
    simp only [Viewer.splitChar, ih2, if_neg ha]

/-- Splitting `region-stage` at the dash recovers the two halves when neither
contains a dash. -/
theorem jsSplit_region_stage (r st : String) (hr : '-' ∉ r.data) (hs : '-' ∉ st.data) :
    Viewer.jsSplit (r ++ "-" ++ st) '-' = [r, st] := by
  unfold Viewer.jsSplit
  have hd : (r ++ "-" ++ st).data = r.data ++ '-' :: st.data := by
    simp [String.data_append]
  rw [hd, splitChar_append_cons '-' st.data r.data hr,
    splitChar_of_not_mem '-' st.data hs]
  rfl

/-- The id-parsing step of `updateLayers` inverts the id construction of
`addLayer` whenever the region and stage ids contain no dash. -/
theorem parseLayerId_roundtrip (r st : String) (hr : '-' ∉ r.data) (hs : '-' ∉ st.data) :
    Viewer.parseLayerId (r ++ "-" ++ st) = (r, st) := by
  unfold Viewer.parseLayerId
  rw [jsSplit_region_stage r st hr hs]
  rfl

/-- A layer id (one dash) is never an outline id (at least two dashes). -/
theorem lid_ne_outline (r st r' st' : String) (hr : '-' ∉ r.data) (hs : '-' ∉ st.data)
    (hr' : '-' ∉ r'.data) (hs' : '-' ∉ st'.data) :
    r ++ "-" ++ st ≠ r' ++ "-" ++ st' ++ "-outline" := by
  intro he
  have hc := congrArg (fun s : String => s.data.count '-') he
  simp only [String.data_append, List.count_append] at hc
  rw [List.count_eq_zero.mpr hr, List.count_eq_zero.mpr hs,
    List.count_eq_zero.mpr hr', List.count_eq_zero.mpr hs'] at hc
  simp at hc

/-- Outline ids built from the same stage agree only on equal regions. -/
theorem outline_id_inj (r r' st : String)
    (he : r ++ "-" ++ st ++ "-outline" = r' ++ "-" ++ st ++ "-outline") : r = r' := by
  have hd := congrArg String.data he
  simp only [String.data_append, List.append_assoc] at hd
  exact String.ext (List.append_inj_left' hd rfl)

/-- Layer ids built from the same stage agree only on equal regions. -/
theorem layer_id_inj (r r' st : String)
    (he : r ++ "-" ++ st = r' ++ "-" ++ st) : r = r' := by
  have hd := congrArg String.data he
  simp only [String.data_append, List.append_assoc] at hd
  exact String.ext (List.append_inj_left' hd rfl)

/-- No configured archive key contains a dash. -/
theorem availableFiles_dash_free : ∀ k ∈ Viewer.CONFIG.availableFiles, '-' ∉ k.data := by
  decide

/-- A region (and stage) appearing in an available archive key is dash-free. -/
theorem region_dash_free_of_avail (r st : String)
    (h : (r ++ "_" ++ st) ∈ Viewer.CONFIG.availableFiles) :
    '-' ∉ r.data ∧ '-' ∉ st.data := by
  have hk := availableFiles_dash_free _ h
  simp only [String.data_append, List.mem_append, List.mem_cons, not_or] at hk
  exact ⟨hk.1.1, hk.2⟩

/-- No configured stage id contains a dash. -/
theorem stages_id_dash_free : ∀ cfg ∈ Viewer.CONFIG.stages, '-' ∉ cfg.id.data := by
  decide

/-- A successful stage lookup pins the config's id and membership. -/
theorem findStage_id (st : String) (cfg : Viewer.StageConfig)
    (hf : Viewer.LAYERS.findStage st = some cfg) :
    cfg.id = st ∧ cfg ∈ Viewer.CONFIG.stages := by
  unfold Viewer.LAYERS.findStage at hf
  have hp := List.find?_some hf
  exact ⟨eq_of_beq hp, List.mem_of_find?_eq_some hf⟩

/-- The current stage is dash-free whenever it has a config entry. -/
theorem stage_dash_free_of_findStage (st : String) (cfg : Viewer.StageConfig)
    (hf : Viewer.LAYERS.findStage st = some cfg) : '-' ∉ st.data := by
  obtain ⟨hid, hmem⟩ := findStage_id st cfg hf
  exact hid ▸ stages_id_dash_free cfg hmem

/-- A fresh polygon `addLayer`: fill and outline appended, source added if
missing, normal return. -/
theorem addLayer_fresh_polygon (m : Viewer.MapState) (r st : String)
    (cfg : Viewer.StageConfig) (hf : Viewer.LAYERS.findStage st = some cfg)
    (ht : cfg.type = .polygon)
    (hlid : (r ++ "-" ++ st) ∉ m.layers)
    (hout : (r ++ "-" ++ st ++ "-outline") ∉ m.layers) :
    Viewer.LAYERS.addLayer m r st =
      ({ sources := if (r ++ "-" ++ st ++ "-source") ∈ m.sources then m.sources
                    else m.sources ++ [r ++ "-" ++ st ++ "-source"],
         layers := m.layers ++ [r ++ "-" ++ st, r ++ "-" ++ st ++ "-outline"] },
        some (r ++ "-" ++ st)) := by
  have hne : (r ++ "-" ++ st ++ "-outline") ≠ (r ++ "-" ++ st) :=
    Ne.symm (string_ne_self_append _ _ (by decide))
  unfold Viewer.LAYERS.addLayer
  rw [hf]
  by_cases hs : (r ++ "-" ++ st ++ "-source") ∈ m.sources <;>
    simp [ht, hs, hlid, hout, hne]

/-- A fresh line `addLayer`: the single line layer appended, source added if
missing, normal return. -/
theorem addLayer_fresh_line (m : Viewer.MapState) (r st : String)
    (cfg : Viewer.StageConfig) (hf : Viewer.LAYERS.findStage st = some cfg)
    (ht : cfg.type = .line)
    (hlid : (r ++ "-" ++ st) ∉ m.layers) :
    Viewer.LAYERS.addLayer m r st =
      ({ sources := if (r ++ "-" ++ st ++ "-source") ∈ m.sources then m.sources
                    else m.sources ++ [r ++ "-" ++ st ++ "-source"],
         layers := m.layers ++ [r ++ "-" ++ st] },
        some (r ++ "-" ++ st)) := by
  unfold Viewer.LAYERS.addLayer
  rw [hf]
  by_cases hs : (r ++ "-" ++ st ++ "-source") ∈ m.sources <;>
    simp [ht, hs, hlid]

/-- Membership after a presence-guarded erase. -/
theorem erase_guard_mem (l : List String) (a : String) (h : l.Nodup) :
    ∀ x, x ∈ (if a ∈ l then l.erase a else l) ↔ (x ∈ l ∧ x ≠ a) := by
  intro x
  split_ifs with ha
  · rw [h.mem_erase_iff]
    tauto
  · constructor
    · intro hx
      exact ⟨hx, fun he => ha (he ▸ hx)⟩
    · tauto

/-- A presence-guarded erase keeps the list duplicate-free. -/
theorem erase_guard_nodup (l : List String) (a : String) (h : l.Nodup) :
    (if a ∈ l then l.erase a else l).Nodup := by
  split_ifs
  · exact h.erase a
  · exact h

/-- On a duplicate-free map, `removeLayer` removes exactly the layer id, its
outline id and its source id, and nothing else. -/
theorem removeLayer_exact (m : Viewer.MapState) (r st : String)
    (hL : m.layers.Nodup) (hS : m.sources.Nodup) :
    (∀ x, x ∈ (Viewer.LAYERS.removeLayer m r st).layers ↔
      (x ∈ m.layers ∧ x ≠ r ++ "-" ++ st ∧ x ≠ r ++ "-" ++ st ++ "-outline")) ∧
    (∀ x, x ∈ (Viewer.LAYERS.removeLayer m r st).sources ↔
      (x ∈ m.sources ∧ x ≠ r ++ "-" ++ st ++ "-source")) := by
  obtain ⟨ms, ml⟩ := m
  simp only at hL hS
  unfold Viewer.LAYERS.removeLayer
  simp only
  have A1 := erase_guard_mem ml (r ++ "-" ++ st) hL
  have A1n := erase_guard_nodup ml (r ++ "-" ++ st) hL
  have A2 := erase_guard_mem (if (r ++ "-" ++ st) ∈ ml then ml.erase (r ++ "-" ++ st) else ml)
    (r ++ "-" ++ st ++ "-outline") A1n
  have B1 := erase_guard_mem ms (r ++ "-" ++ st ++ "-source") hS
  constructor
  · intro x
    constructor
    · intro hx
      split_ifs at hx <;> simp_all [List.Nodup.mem_erase_iff, A1n.mem_erase_iff]
    · intro ⟨hx, hx1, hx2⟩
      split_ifs <;> simp_all [List.Nodup.mem_erase_iff, A1n.mem_erase_iff]
  · intro x
    constructor
    · intro hx
      split_ifs at hx <;> simp_all [List.Nodup.mem_erase_iff]
    · intro ⟨hx, hx1⟩
      split_ifs <;> simp_all [List.Nodup.mem_erase_iff]

/-- Characterisation of the region loop of `updateLayers` for a stage with a
config entry, starting from a map in which no per-region layer or outline id
lingers: the loop pushes exactly one layer id per available region (in region
order), the map gains exactly the corresponding source and layer ids, and
duplicate-freeness of both id lists is preserved. -/
theorem addPhase_chars (st : String) (cfg : Viewer.StageConfig)
    (hf : Viewer.LAYERS.findStage st = some cfg)
    (hst : '-' ∉ st.data) :
    ∀ (rs : List String) (m : Viewer.MapState) (acc : List String),
      rs.Nodup →
      (∀ r ∈ rs, (r ++ "_" ++ st) ∈ Viewer.CONFIG.availableFiles →
        (r ++ "-" ++ st) ∉ m.layers ∧ (r ++ "-" ++ st ++ "-outline") ∉ m.layers) →
      ((rs.foldl (Viewer.addRegionStep st) (m, acc)).2 =
          acc ++ (rs.filter (fun r =>
            decide ((r ++ "_" ++ st) ∈ Viewer.CONFIG.availableFiles))).map
            (fun r => r ++ "-" ++ st) ∧
        (∀ x, x ∈ (rs.foldl (Viewer.addRegionStep st) (m, acc)).1.sources ↔
          (x ∈ m.sources ∨ ∃ r ∈ rs.filter (fun r =>
              decide ((r ++ "_" ++ st) ∈ Viewer.CONFIG.availableFiles)),
            x = r ++ "-" ++ st ++ "-source")) ∧
        (∀ x, x ∈ (rs.foldl (Viewer.addRegionStep st) (m, acc)).1.layers ↔
          (x ∈ m.layers ∨ ∃ r ∈ rs.filter (fun r =>
              decide ((r ++ "_" ++ st) ∈ Viewer.CONFIG.availableFiles)),
            (x = r ++ "-" ++ st ∨
              (cfg.type = .polygon ∧ x = r ++ "-" ++ st ++ "-outline")))) ∧
        (m.layers.Nodup → (rs.foldl (Viewer.addRegionStep st) (m, acc)).1.layers.Nodup) ∧
        (m.sources.Nodup → (rs.foldl (Viewer.addRegionStep st) (m, acc)).1.sources.Nodup)) := by
  intro rs
  induction rs with
  | nil =>
    intro m acc _ _
    simp
  | cons r0 rest ih =>
    intro m acc hnd hfresh
    obtain ⟨hr0notin, hndrest⟩ := List.nodup_cons.mp hnd
    by_cases hav : (r0 ++ "_" ++ st) ∈ Viewer.CONFIG.availableFiles
    · have hdf0 : '-' ∉ r0.data := (region_dash_free_of_avail r0 st hav).1
      obtain ⟨hlid0, hout0⟩ := hfresh r0 (List.mem_cons_self r0 rest) hav
      have hlidout0 : (r0 ++ "-" ++ st) ≠ (r0 ++ "-" ++ st ++ "-outline") :=
        string_ne_self_append _ _ (by decide)
      cases htype : cfg.type with
      | polygon =>
        have hstep : Viewer.addRegionStep st (m, acc) r0 =
            ({ sources := if (r0 ++ "-" ++ st ++ "-source") ∈ m.sources then m.sources
                          else m.sources ++ [r0 ++ "-" ++ st ++ "-source"],
               layers := m.layers ++ [r0 ++ "-" ++ st, r0 ++ "-" ++ st ++ "-outline"] },
              acc ++ [r0 ++ "-" ++ st]) := by
          unfold Viewer.addRegionStep
          rw [if_pos hav, addLayer_fresh_polygon m r0 st cfg hf htype hlid0 hout0]
        have hfresh' : ∀ r ∈ rest, (r ++ "_" ++ st) ∈ Viewer.CONFIG.availableFiles →
            (r ++ "-" ++ st) ∉ m.layers ++ [r0 ++ "-" ++ st, r0 ++ "-" ++ st ++ "-outline"] ∧
            (r ++ "-" ++ st ++ "-outline") ∉
              m.layers ++ [r0 ++ "-" ++ st, r0 ++ "-" ++ st ++ "-outline"] := by
          intro r hr havr
          obtain ⟨hbase1, hbase2⟩ := hfresh r (List.mem_cons_of_mem _ hr) havr
          have hrd : '-' ∉ r.data := (region_dash_free_of_avail r st havr).1
          have hrne : r ≠ r0 := fun he => hr0notin (he ▸ hr)
          constructor
          · simp only [List.mem_append, List.mem_cons, List.not_mem_nil, or_false, not_or]
            exact ⟨hbase1, fun he => hrne (layer_id_inj r r0 st he),
              lid_ne_outline r st r0 st hrd hst hdf0 hst⟩
          · simp only [List.mem_append, List.mem_cons, List.not_mem_nil, or_false, not_or]
            exact ⟨hbase2,
              fun he => lid_ne_outline r0 st r st hdf0 hst hrd hst he.symm,
              fun he => hrne (outline_id_inj r r0 st he)⟩
        obtain ⟨ih1, ih2, ih3, ih4, ih5⟩ := ih
          { sources := if (r0 ++ "-" ++ st ++ "-source") ∈ m.sources then m.sources
                       else m.sources ++ [r0 ++ "-" ++ st ++ "-source"],
            layers := m.layers ++ [r0 ++ "-" ++ st, r0 ++ "-" ++ st ++ "-outline"] }
          (acc ++ [r0 ++ "-" ++ st]) hndrest hfresh'
        have hsrc' : ∀ x,
            (x ∈ (if (r0 ++ "-" ++ st ++ "-source") ∈ m.sources then m.sources
                  else m.sources ++ [r0 ++ "-" ++ st ++ "-source"])) ↔
            (x ∈ m.sources ∨ x = r0 ++ "-" ++ st ++ "-source") := by
          intro x
          split_ifs with h
          · exact ⟨Or.inl, fun hx => hx.elim id (fun he => he ▸ h)⟩
          · simp [List.mem_append]
        rw [List.foldl_cons, hstep]
        refine ⟨?_, fun x => ?_, fun x => ?_, fun hLm => ?_, fun hSm => ?_⟩
        · rw [ih1]
          simp [List.filter_cons, hav]
        · rw [ih2 x]
          simp [hsrc' x, List.filter_cons, hav, or_assoc]
        · rw [htype] at ih3
          rw [ih3 x]
          simp [List.filter_cons, hav, or_assoc, List.mem_append]
        · apply ih4
          refine List.Nodup.append hLm (by simp [hlidout0]) ?_
          intro a ha hmem
          rcases List.mem_cons.mp hmem with rfl | hmem2
          · exact hlid0 ha
          · rcases List.mem_cons.mp hmem2 with rfl | h3
            · exact hout0 ha
            · simp at h3
        · apply ih5
          split_ifs with h
          · exact hSm
          · refine List.Nodup.append hSm (by simp) ?_
            intro a ha hmem
            rcases List.mem_cons.mp hmem with rfl | h3
            · exact h ha
            · simp at h3
      | line =>
        have hstep : Viewer.addRegionStep st (m, acc) r0 =
            ({ sources := if (r0 ++ "-" ++ st ++ "-source") ∈ m.sources then m.sources
                          else m.sources ++ [r0 ++ "-" ++ st ++ "-source"],
               layers := m.layers ++ [r0 ++ "-" ++ st] },
              acc ++ [r0 ++ "-" ++ st]) := by
          unfold Viewer.addRegionStep
          rw [if_pos hav, addLayer_fresh_line m r0 st cfg hf htype hlid0]
        have hfresh' : ∀ r ∈ rest, (r ++ "_" ++ st) ∈ Viewer.CONFIG.availableFiles →
            (r ++ "-" ++ st) ∉ m.layers ++ [r0 ++ "-" ++ st] ∧
            (r ++ "-" ++ st ++ "-outline") ∉ m.layers ++ [r0 ++ "-" ++ st] := by
          intro r hr havr
          obtain ⟨hbase1, hbase2⟩ := hfresh r (List.mem_cons_of_mem _ hr) havr
          have hrd : '-' ∉ r.data := (region_dash_free_of_avail r st havr).1
          have hrne : r ≠ r0 := fun he => hr0notin (he ▸ hr)
          constructor
          · simp only [List.mem_append, List.mem_cons, List.not_mem_nil, or_false, not_or]
            exact ⟨hbase1, fun he => hrne (layer_id_inj r r0 st he)⟩
          · simp only [List.mem_append, List.mem_cons, List.not_mem_nil, or_false, not_or]
            exact ⟨hbase2, fun he => lid_ne_outline r0 st r st hdf0 hst hrd hst he.symm⟩
        obtain ⟨ih1, ih2, ih3, ih4, ih5⟩ := ih
          { sources := if (r0 ++ "-" ++ st ++ "-source") ∈ m.sources then m.sources
                       else m.sources ++ [r0 ++ "-" ++ st ++ "-source"],
            layers := m.layers ++ [r0 ++ "-" ++ st] }
          (acc ++ [r0 ++ "-" ++ st]) hndrest hfresh'
        have hsrc' : ∀ x,
            (x ∈ (if (r0 ++ "-" ++ st ++ "-source") ∈ m.sources then m.sources
                  else m.sources ++ [r0 ++ "-" ++ st ++ "-source"])) ↔
            (x ∈ m.sources ∨ x = r0 ++ "-" ++ st ++ "-source") := by
          intro x
          split_ifs with h
          · exact ⟨Or.inl, fun hx => hx.elim id (fun he => he ▸ h)⟩
          · simp [List.mem_append]
        rw [List.foldl_cons, hstep]
        refine ⟨?_, fun x => ?_, fun x => ?_, fun hLm => ?_, fun hSm => ?_⟩
        · rw [ih1]
          simp [List.filter_cons, hav]
        · rw [ih2 x]
          simp [hsrc' x, List.filter_cons, hav, or_assoc]
        · rw [htype] at ih3
          rw [ih3 x]
          simp [List.filter_cons, hav, or_assoc, List.mem_append]
        · apply ih4
          refine List.Nodup.append hLm (by simp) ?_
          intro a ha hmem
          rcases List.mem_cons.mp hmem with rfl | h3
          · exact hlid0 ha
          · simp at h3
        · apply ih5
          split_ifs with h
          · exact hSm
          · refine List.Nodup.append hSm (by simp) ?_
            intro a ha hmem
            rcases List.mem_cons.mp hmem with rfl | h3
            · exact h ha
            · simp at h3
    · have hstep : Viewer.addRegionStep st (m, acc) r0 = (m, acc) := by
        unfold Viewer.addRegionStep
        rw [if_neg hav]
      have hfresh' : ∀ r ∈ rest, (r ++ "_" ++ st) ∈ Viewer.CONFIG.availableFiles →
          (r ++ "-" ++ st) ∉ m.layers ∧ (r ++ "-" ++ st ++ "-outline") ∉ m.layers :=
        fun r hr => hfresh r (List.mem_cons_of_mem _ hr)
      obtain ⟨ih1, ih2, ih3, ih4, ih5⟩ := ih m acc hndrest hfresh'
      rw [List.foldl_cons, hstep]
      refine ⟨?_, ?_, ?_, ih4, ih5⟩
      · rw [ih1]
        simp [List.filter_cons, hav]
      · intro x
        rw [ih2 x]
        simp [List.filter_cons, hav]
      · intro x
        rw [ih3 x]
        simp [List.filter_cons, hav]

/-- `addLayer` for a stage without a config entry: the source is still added
(the JS statement runs before the `TypeError`), no layer is touched, and the
call throws. -/
theorem addLayer_stage_none (m : Viewer.MapState) (r st : String)
    (hf : Viewer.LAYERS.findStage st = none) :
    Viewer.LAYERS.addLayer m r st =
      ({ sources := if (r ++ "-" ++ st ++ "-source") ∈ m.sources then m.sources
                    else m.sources ++ [r ++ "-" ++ st ++ "-source"],
         layers := m.layers }, none) := by
  unfold Viewer.LAYERS.addLayer
  rw [hf]
  by_cases hs : (r ++ "-" ++ st ++ "-source") ∈ m.sources <;> simp [hs]

/-- The region loop for a stage without a config entry: every add throws and
is caught, so no layer id is pushed, the layer list never changes, and the
source list stays duplicate-free. -/
theorem addPhase_stage_none (st : String) (hf : Viewer.LAYERS.findStage st = none) :
    ∀ (rs : List String) (m : Viewer.MapState) (acc : List String),
      ((rs.foldl (Viewer.addRegionStep st) (m, acc)).2 = acc ∧
        (rs.foldl (Viewer.addRegionStep st) (m, acc)).1.layers = m.layers ∧
        (m.sources.Nodup → (rs.foldl (Viewer.addRegionStep st) (m, acc)).1.sources.Nodup)) := by
  intro rs
  induction rs with
  | nil =>
    intro m acc
    exact ⟨rfl, rfl, fun h => h⟩
  | cons r0 rest ih =>
    intro m acc
    by_cases hav : (r0 ++ "_" ++ st) ∈ Viewer.CONFIG.availableFiles
    · have hstep : Viewer.addRegionStep st (m, acc) r0 =
          ({ sources := if (r0 ++ "-" ++ st ++ "-source") ∈ m.sources then m.sources
                        else m.sources ++ [r0 ++ "-" ++ st ++ "-source"],
             layers := m.layers }, acc) := by
        unfold Viewer.addRegionStep
        rw [if_pos hav, addLayer_stage_none m r0 st hf]
      obtain ⟨ih1, ih2, ih3⟩ := ih
        { sources := if (r0 ++ "-" ++ st ++ "-source") ∈ m.sources then m.sources
                     else m.sources ++ [r0 ++ "-" ++ st ++ "-source"],
          layers := m.layers } acc
      rw [List.foldl_cons, hstep]
      refine ⟨ih1, ih2, fun hSm => ih3 ?_⟩
      split_ifs with h
      · exact hSm
      · refine List.Nodup.append hSm (by simp) ?_
        intro a ha hmem
        rcases List.mem_cons.mp hmem with rfl | h3
        · exact h ha
        · simp at h3
    · have hstep : Viewer.addRegionStep st (m, acc) r0 = (m, acc) := by
        unfold Viewer.addRegionStep
        rw [if_neg hav]
      rw [List.foldl_cons, hstep]
      exact ih m acc

/-- Claim C3: after `updateLayers` — the common path of every viewer operation
that touches analysis layers (layer add, layer removal, region change, stage
change, analysis toggle) — the map's source and layer id lists stay
duplicate-free, and every id held in the active-layer list corresponds to
exactly one added map source plus exactly two map layers (fill and outline)
when the stage's geometry is polygon, or exactly one map layer and no outline
when it is line; removing that id deletes exactly those layers and that
source, and nothing else, so no source or layer is orphaned. -/
theorem updateLayers_active_layer_invariant (s : Viewer.AppState)
    (hL : (Viewer.removePhase s).layers.Nodup)
    (hS : (Viewer.removePhase s).sources.Nodup)
    (hfresh : ∀ r ∈ Viewer.regionsToShow s.currentRegion,
      (r ++ "_" ++ s.currentStage) ∈ Viewer.CONFIG.availableFiles →
      (r ++ "-" ++ s.currentStage) ∉ (Viewer.removePhase s).layers ∧
      (r ++ "-" ++ s.currentStage ++ "-outline") ∉ (Viewer.removePhase s).layers) :
    (Viewer.updateLayers s).map.layers.Nodup ∧
    (Viewer.updateLayers s).map.sources.Nodup ∧
    ∀ lid ∈ (Viewer.updateLayers s).activeLayers,
      ∃ region cfg,
        lid = region ++ "-" ++ s.currentStage ∧
        Viewer.LAYERS.findStage s.currentStage = some cfg ∧
        Viewer.parseLayerId lid = (region, s.currentStage) ∧
        (Viewer.updateLayers s).map.sources.count
          (region ++ "-" ++ s.currentStage ++ "-source") = 1 ∧
        (cfg.type = .polygon →
          (Viewer.updateLayers s).map.layers.count lid = 1 ∧
          (Viewer.updateLayers s).map.layers.count (lid ++ "-outline") = 1) ∧
        (cfg.type = .line →
          (Viewer.updateLayers s).map.layers.count lid = 1 ∧
          (lid ++ "-outline") ∉ (Viewer.updateLayers s).map.layers) ∧
        (∀ x, x ∈ (Viewer.LAYERS.removeLayer (Viewer.updateLayers s).map region
            s.currentStage).layers ↔
          (x ∈ (Viewer.updateLayers s).map.layers ∧ x ≠ lid ∧
            x ≠ lid ++ "-outline")) ∧
        (∀ x, x ∈ (Viewer.LAYERS.removeLayer (Viewer.updateLayers s).map region
            s.currentStage).sources ↔
          (x ∈ (Viewer.updateLayers s).map.sources ∧
            x ≠ region ++ "-" ++ s.currentStage ++ "-source")) := by
  by_cases hA : s.showAnalysisLayer = true
  case neg =>
    have hupd : Viewer.updateLayers s =
        { s with map := Viewer.removePhase s, activeLayers := [] } := by
      unfold Viewer.updateLayers
      simp [hA]
    rw [hupd]
    exact ⟨hL, hS, by simp⟩
  case pos =>
    have hupd : Viewer.updateLayers s =
        { s with
          map := ((Viewer.regionsToShow s.currentRegion).foldl
            (Viewer.addRegionStep s.currentStage) (Viewer.removePhase s, [])).1,
          activeLayers := ((Viewer.regionsToShow s.currentRegion).foldl
            (Viewer.addRegionStep s.currentStage) (Viewer.removePhase s, [])).2 } := by
      unfold Viewer.updateLayers
      simp [hA]
    cases hfc : Viewer.LAYERS.findStage s.currentStage with
    | none =>
      obtain ⟨hn1, hn2, hn3⟩ := addPhase_stage_none s.currentStage hfc
        (Viewer.regionsToShow s.currentRegion) (Viewer.removePhase s) []
      rw [hupd]
      refine ⟨?_, ?_, ?_⟩
      · show ((Viewer.regionsToShow s.currentRegion).foldl
          (Viewer.addRegionStep s.currentStage) (Viewer.removePhase s, [])).1.layers.Nodup
        rw [hn2]
        exact hL
      · exact hn3 hS
      · intro lid hlid
        rw [show ({ s with
            map := ((Viewer.regionsToShow s.currentRegion).foldl
              (Viewer.addRegionStep s.currentStage) (Viewer.removePhase s, [])).1,
            activeLayers := ((Viewer.regionsToShow s.currentRegion).foldl
              (Viewer.addRegionStep s.currentStage)
              (Viewer.removePhase s, [])).2 } : Viewer.AppState).activeLayers =
            ((Viewer.regionsToShow s.currentRegion).foldl
              (Viewer.addRegionStep s.currentStage)
              (Viewer.removePhase s, [])).2 from rfl, hn1] at hlid
        simp at hlid
    | some cfg =>
      have hndrs : (Viewer.regionsToShow s.currentRegion).Nodup := by
        unfold Viewer.regionsToShow
        split_ifs
        · decide
        · simp
      have hst : '-' ∉ s.currentStage.data :=
        stage_dash_free_of_findStage _ cfg hfc
      obtain ⟨hc1, hc2, hc3, hc4, hc5⟩ := addPhase_chars s.currentStage cfg hfc hst
        (Viewer.regionsToShow s.currentRegion) (Viewer.removePhase s) [] hndrs hfresh
      rw [hupd]
      refine ⟨hc4 hL, hc5 hS, ?_⟩
      intro lid hlid
      have hlid2 : lid ∈ ((Viewer.regionsToShow s.currentRegion).foldl
          (Viewer.addRegionStep s.currentStage) (Viewer.removePhase s, [])).2 := hlid
      rw [hc1] at hlid2
      simp only [List.nil_append, List.mem_map] at hlid2
      obtain ⟨region, hregfilter, rfl⟩ := hlid2
      have hmemrs : region ∈ Viewer.regionsToShow s.currentRegion ∧
          (region ++ "_" ++ s.currentStage) ∈ Viewer.CONFIG.availableFiles := by
        have hm := List.mem_filter.mp hregfilter
        exact ⟨hm.1, by simpa using hm.2⟩
      have hrd : '-' ∉ region.data := (region_dash_free_of_avail _ _ hmemrs.2).1
      refine ⟨region, cfg, rfl, rfl,
        parseLayerId_roundtrip region s.currentStage hrd hst, ?_, ?_, ?_, ?_, ?_⟩
      · apply List.count_eq_one_of_mem (hc5 hS)
        rw [hc2]
        exact Or.inr ⟨region, hregfilter, rfl⟩
      · intro htp
        constructor
        · apply List.count_eq_one_of_mem (hc4 hL)
          rw [hc3]
          exact Or.inr ⟨region, hregfilter, Or.inl rfl⟩
        · apply List.count_eq_one_of_mem (hc4 hL)
          rw [hc3]
          exact Or.inr ⟨region, hregfilter, Or.inr ⟨htp, rfl⟩⟩
      · intro htl
        constructor
        · apply List.count_eq_one_of_mem (hc4 hL)
          rw [hc3]
          exact Or.inr ⟨region, hregfilter, Or.inl rfl⟩
        · intro hmem
          rw [hc3] at hmem
          rcases hmem with hm1 | ⟨r', hr', hm2⟩
          · exact (hfresh region hmemrs.1 hmemrs.2).2 hm1
          · have havr' : (r' ++ "_" ++ s.currentStage) ∈ Viewer.CONFIG.availableFiles := by
              have hm := List.mem_filter.mp hr'
              simpa using hm.2
            have hrd' : '-' ∉ r'.data := (region_dash_free_of_avail _ _ havr').1
            rcases hm2 with hm2a | ⟨hm2p, _⟩
            · exact lid_ne_outline r' s.currentStage region s.currentStage
                hrd' hst hrd hst hm2a.symm
            · rw [htl] at hm2p
              exact absurd hm2p (by simp)
      · exact (removeLayer_exact _ region s.currentStage (hc4 hL) (hc5 hS)).1
      · exact (removeLayer_exact _ region s.currentStage (hc4 hL) (hc5 hS)).2

/-- Witness for C3: the initial-style state (empty map, region "all", line
stage "range_feasibility"), instantiated at the first active layer id. -/
theorem updateLayers_active_layer_invariant_witness :
    (Viewer.updateLayers ⟨⟨[], []⟩, "all", "range_feasibility", "light", [],
      true, true, false, false⟩).map.layers.Nodup ∧
    (Viewer.updateLayers ⟨⟨[], []⟩, "all", "range_feasibility", "light", [],
      true, true, false, false⟩).map.sources.Nodup ∧
    ∃ region cfg,
      "hitrans-range_feasibility" = region ++ "-" ++ "range_feasibility" ∧
      Viewer.LAYERS.findStage "range_feasibility" = some cfg ∧
      Viewer.parseLayerId "hitrans-range_feasibility" = (region, "range_feasibility") ∧
      (Viewer.updateLayers ⟨⟨[], []⟩, "all", "range_feasibility", "light", [],
        true, true, false, false⟩).map.sources.count
        (region ++ "-" ++ "range_feasibility" ++ "-source") = 1 ∧
      (cfg.type = .polygon →
        (Viewer.updateLayers ⟨⟨[], []⟩, "all", "range_feasibility", "light", [],
          true, true, false, false⟩).map.layers.count "hitrans-range_feasibility" = 1 ∧
        (Viewer.updateLayers ⟨⟨[], []⟩, "all", "range_feasibility", "light", [],
          true, true, false, false⟩).map.layers.count
          ("hitrans-range_feasibility" ++ "-outline") = 1) ∧
      (cfg.type = .line →
        (Viewer.updateLayers ⟨⟨[], []⟩, "all", "range_feasibility", "light", [],
          true, true, false, false⟩).map.layers.count "hitrans-range_feasibility" = 1 ∧
        ("hitrans-range_feasibility" ++ "-outline") ∉
          (Viewer.updateLayers ⟨⟨[], []⟩, "all", "range_feasibility", "light", [],
            true, true, false, false⟩).map.layers) ∧
      (∀ x, x ∈ (Viewer.LAYERS.removeLayer
          (Viewer.updateLayers ⟨⟨[], []⟩, "all", "range_feasibility", "light", [],
            true, true, false, false⟩).map region "range_feasibility").layers ↔
        (x ∈ (Viewer.updateLayers ⟨⟨[], []⟩, "all", "range_feasibility", "light", [],
            true, true, false, false⟩).map.layers ∧
          x ≠ "hitrans-range_feasibility" ∧
          x ≠ "hitrans-range_feasibility" ++ "-outline")) ∧
      (∀ x, x ∈ (Viewer.LAYERS.removeLayer
          (Viewer.updateLayers ⟨⟨[], []⟩, "all", "range_feasibility", "light", [],
            true, true, false, false⟩).map region "range_feasibility").sources ↔
        (x ∈ (Viewer.updateLayers ⟨⟨[], []⟩, "all", "range_feasibility", "light", [],
            true, true, false, false⟩).map.sources ∧
          x ≠ region ++ "-" ++ "range_feasibility" ++ "-source")) := by
  have h := updateLayers_active_layer_invariant
    ⟨⟨[], []⟩, "all", "range_feasibility", "light", [], true, true, false, false⟩
    (by decide) (by decide) (by decide)
  exact ⟨h.1, h.2.1, h.2.2 "hitrans-range_feasibility" (by decide)⟩

/-- Claim C6: with region "all" and an analysis stage active, `updateLayers`
pushes exactly one layer id per configured region whose archive key
`{region}_{stage}` is in `CONFIG.availableFiles`, in region order, and
attempts nothing for regions whose key is absent.  `updateLayers` is a total
function of the state — a JS exception inside one region's `addLayer` is
modelled by the error flag, which the loop absorbs (the JS `catch` logs and
continues) — and the second conjunct shows a run in which one region's add
throws (a lingering duplicate outline id) while every other region's layer is
still added. -/
theorem updateLayers_all_adds_available_regions (s : Viewer.AppState)
    (cfg : Viewer.StageConfig)
    (hall : s.currentRegion = "all")
    (hA : s.showAnalysisLayer = true)
    (hfc : Viewer.LAYERS.findStage s.currentStage = some cfg)
    (hfresh : ∀ r ∈ Viewer.regionsToShow s.currentRegion,
      (r ++ "_" ++ s.currentStage) ∈ Viewer.CONFIG.availableFiles →
      (r ++ "-" ++ s.currentStage) ∉ (Viewer.removePhase s).layers ∧
      (r ++ "-" ++ s.currentStage ++ "-outline") ∉ (Viewer.removePhase s).layers) :
    (Viewer.updateLayers s).activeLayers =
      ((Viewer.CONFIG.regions.map (fun r => r.id)).filter (fun r =>
        decide ((r ++ "_" ++ s.currentStage) ∈ Viewer.CONFIG.availableFiles))).map
        (fun r => r ++ "-" ++ s.currentStage) ∧
    (Viewer.updateLayers ⟨⟨[], ["sestran-adoption_propensity-outline"]⟩, "all",
      "adoption_propensity", "light", [], true, true, false, false⟩).activeLayers =
      ["hitrans-adoption_propensity", "nestrans-adoption_propensity",
        "spt-adoption_propensity", "swestrans-adoption_propensity",
        "tactran-adoption_propensity", "zettrans-adoption_propensity"] := by
  constructor
  · have hrts : Viewer.regionsToShow s.currentRegion =
        Viewer.CONFIG.regions.map (fun r => r.id) := by
      rw [hall]
      rfl
    have hndrs : (Viewer.regionsToShow s.currentRegion).Nodup := by
      rw [hrts]
      decide
    have hst : '-' ∉ s.currentStage.data :=
      stage_dash_free_of_findStage _ cfg hfc
    obtain ⟨hc1, _, _, _, _⟩ := addPhase_chars s.currentStage cfg hfc hst
      (Viewer.regionsToShow s.currentRegion) (Viewer.removePhase s) [] hndrs hfresh
    have hupd : Viewer.updateLayers s =
        { s with
          map := ((Viewer.regionsToShow s.currentRegion).foldl
            (Viewer.addRegionStep s.currentStage) (Viewer.removePhase s, [])).1,
          activeLayers := ((Viewer.regionsToShow s.currentRegion).foldl
            (Viewer.addRegionStep s.currentStage) (Viewer.removePhase s, [])).2 } := by
      unfold Viewer.updateLayers
      simp [hA]
    rw [hupd]
    show ((Viewer.regionsToShow s.currentRegion).foldl
        (Viewer.addRegionStep s.currentStage) (Viewer.removePhase s, [])).2 = _
    rw [hc1, hrts]
    simp
  · decide

/-- Witness for C6: the spec's scenario — region "all", stage
"range_feasibility" — adds one line layer per region, all seven keys being
present in the availability list. -/
theorem updateLayers_all_adds_available_regions_witness :
    (Viewer.updateLayers ⟨⟨[], []⟩, "all", "range_feasibility", "light", [],
      true, true, false, false⟩).activeLayers =
      ((Viewer.CONFIG.regions.map (fun r => r.id)).filter (fun r =>
        decide ((r ++ "_" ++ "range_feasibility") ∈ Viewer.CONFIG.availableFiles))).map
        (fun r => r ++ "-" ++ "range_feasibility") ∧
    (Viewer.updateLayers ⟨⟨[], []⟩, "all", "range_feasibility", "light", [],
      true, true, false, false⟩).activeLayers =
      ["hitrans-range_feasibility", "nestrans-range_feasibility",
        "sestran-range_feasibility", "spt-range_feasibility",
        "swestrans-range_feasibility", "tactran-range_feasibility",
        "zettrans-range_feasibility"] :=
  ⟨(updateLayers_all_adds_available_regions
      ⟨⟨[], []⟩, "all", "range_feasibility", "light", [], true, true, false, false⟩
      _ rfl rfl rfl (by decide)).1,
   by decide⟩
